import Mathlib

/-!
Verification of the section-scoring and remediation-plan pipeline of the
AI-Assessment web application (`app.py`).

The development shallowly embeds the pure decision logic of the program:

* the score-extraction logic of `generate_ai_score` (brace slicing, a strict
  JSON parse modelled by `json_loads`, and the digit-run fallback modelled
  after `re.search(r'\b(\d+)\b', content)`);
* the section resolution of `get_company_sections`;
* the derived per-section mean `get_section_score` and the overall mean
  `get_overall_score`;
* the orchestrator `calculate_all_section_scores` and the single-section
  rescoring path of `update_assessment`, with the external completion
  service represented as an oracle parameter;
* the CSV import `upload_csv` (company-name resolution, the
  duplicate-company guard, the delete-then-insert replacement of a
  company's rows).

Numbers are idealised as rationals (the program stores Python ints/floats);
a Python exception escaping a computation is modelled with `Except`, and a
caught failure that the program converts to `None` is modelled with
`Option`.  JSON corner cases that no theorem touches (the `NaN`/`Infinity`
literals, surrogate-pair recombination in `\uXXXX` escapes) are not
modelled: the parser rejects the former and maps a lone escape directly
through `Char.ofNat`.
-/

/-! ## Basic string machinery (Python `in`, `strip`, `find`, `rfind`) -/

/-- Does `pre` occur at the head of `l`?  (Python `startswith`, used to build
the substring test.) -/
def beginsWith : List Char → List Char → Bool
  | [], _ => true
  | _ :: _, [] => false
  | p :: ps, c :: cs => p == c && beginsWith ps cs

/-- Python `needle in hay` on strings: substring occurrence. -/
def containsSubstr (hay needle : List Char) : Bool :=
  match hay with
  | [] => beginsWith needle []
  | _ :: rest => beginsWith needle hay || containsSubstr rest needle

/-- Substring test on `String`, the shape used throughout the embedding. -/
def strContains (hay needle : String) : Bool :=
  containsSubstr hay.toList needle.toList

/-- The whitespace set of Python's `str.strip()` (ASCII part: space and
the control characters 9-13). -/
def isPySpace (c : Char) : Bool :=
  c.toNat == 32 || (9 ≤ c.toNat && c.toNat ≤ 13)

/-- Python `str.strip()`: drop leading and trailing whitespace. -/
def pyStrip (s : String) : String :=
  String.mk (((s.toList.dropWhile isPySpace).reverse.dropWhile isPySpace).reverse)

/-- Index of the first occurrence of `c` (Python `str.find`, defined on the
branch where the character is known to occur; `none` mirrors `-1`). -/
def firstIdx (c : Char) : List Char → Option Nat
  | [] => none
  | x :: xs =>
    if x == c then some 0
    else (firstIdx c xs).map (· + 1)

/-- Index of the last occurrence of `c` (Python `str.rfind`). -/
def lastIdx (c : Char) (l : List Char) : Option Nat :=
  ((firstIdx c l.reverse).map (fun i => l.length - 1 - i))

/-- Value of a list of decimal digits (Python `int` on a digit string). -/
def natFromDigits (ds : List Char) : Nat :=
  ds.foldl (fun a d => 10 * a + (d.toNat - '0'.toNat)) 0

/-! ## The digit-run fallback: `re.search(r'\b(\d+)\b', content)`

A match of `\b(\d+)\b` at a position requires a word boundary before the
first digit and after the maximal digit run starting there; `re.search`
tries successive start positions left to right.  Word characters are
alphanumerics and `_` (ASCII, as exercised by every input in this
development). -/

/-- Regex word character (`\w`), ASCII fragment. -/
def isWordChar (c : Char) : Bool :=
  c.isAlpha || c.isDigit || c == '_'

/-- Is the position after `prev` a word boundary for a digit match? -/
def boundaryBefore : Option Char → Bool
  | none => true
  | some p => !isWordChar p

/-- Scan for the first `\b\d+\b` match; returns the integer value of the
matched digit run. -/
def digitRunSearch : Option Char → List Char → Option Nat
  | _, [] => none
  | prev, c :: cs =>
    if c.isDigit && boundaryBefore prev then
      let run := c :: cs.takeWhile Char.isDigit
      match cs.dropWhile Char.isDigit with
      | [] => some (natFromDigits run)
      | d :: _ =>
        if !isWordChar d then some (natFromDigits run)
        else digitRunSearch (some c) cs
    else digitRunSearch (some c) cs

/-- First integer matched by `re.search(r'\b(\d+)\b', ·)`. -/
def firstDigitRun (content : String) : Option Nat :=
  digitRunSearch none content.toList

/-! ## JSON values and the strict parse (`json.loads`) -/

/-- JSON values as produced by `json.loads`; numbers are idealised as exact
rationals. -/
inductive Json where
  | null : Json
  | bool : Bool → Json
  | num : ℚ → Json
  | str : String → Json
  | arr : List Json → Json
  | obj : List (String × Json) → Json

/-- Python `dict.get`: membership is decided by the key, later duplicate
keys overwrite earlier ones, a missing key yields `None`. -/
def objGet (kvs : List (String × Json)) (k : String) : Option Json :=
  match kvs with
  | [] => none
  | (k1, v1) :: rest =>
    match objGet rest k with
    | some v => some v
    | none => if k1 == k then some v1 else none

/-- JSON insignificant whitespace (space, tab, newline, return). -/
def isJsonWs (c : Char) : Bool :=
  c.toNat == 32 || c.toNat == 9 || c.toNat == 10 || c.toNat == 13

/-- Skip insignificant whitespace. -/
def skipWs (cs : List Char) : List Char := cs.dropWhile isJsonWs

/-- Hex digit value, for `\uXXXX` escapes (codes 48-57 are the digits,
97-102 and 65-70 the two letter ranges). -/
def hexVal (c : Char) : Option Nat :=
  let n := c.toNat
  if 48 ≤ n && n ≤ 57 then some (n - 48)
  else if 97 ≤ n && n ≤ 102 then some (n - 87)
  else if 65 ≤ n && n ≤ 70 then some (n - 55)
  else none

/-- Parse the four hex digits of a `\uXXXX` escape. -/
def parseHex4 : List Char → Option (Char × List Char)
  | a :: b :: c :: d :: rest =>
    match [a, b, c, d].mapM hexVal with
    | some vs => some (Char.ofNat (vs.foldl (fun acc v => 16 * acc + v) 0), rest)
    | none => none
  | _ => none

/-- Parse the body of a JSON string literal (after the opening quote);
strict mode: raw control characters below `U+0020` are rejected. -/
def parseJsonStringBody (fuel : Nat) (cs : List Char) : Option (List Char × List Char) :=
  match fuel, cs with
  | 0, _ => none
  | _, [] => none
  | fuel + 1, c :: rest =>
    if c == '"' then some ([], rest)
    else if c == '\\' then
      match rest with
      | [] => none
      | e :: rest2 =>
        let esc : Option (Char × List Char) :=
          if e == '"' then some ('"', rest2)
          else if e == '\\' then some ('\\', rest2)
          else if e == '/' then some ('/', rest2)
          else if e == 'b' then some ('\x08', rest2)
          else if e == 'f' then some ('\x0c', rest2)
          else if e == 'n' then some ('\n', rest2)
          else if e == 'r' then some ('\r', rest2)
          else if e == 't' then some ('\t', rest2)
          else if e == 'u' then parseHex4 rest2
          else none
        match esc with
        | none => none
        | some (ch, rest3) =>
          match parseJsonStringBody fuel rest3 with
          | none => none
          | some (body, rem) => some (ch :: body, rem)
    else if c.toNat < 0x20 then none
    else
      match parseJsonStringBody fuel rest with
      | none => none
      | some (body, rem) => some (c :: body, rem)

/-- Digits of a JSON integer part: `0` alone or a nonzero digit followed by
digits (strict mode rejects leading zeros). -/
def parseIntDigits (cs : List Char) : Option (List Char × List Char) :=
  match cs with
  | [] => none
  | c :: rest =>
    if c == '0' then some ([c], rest)
    else if c.isDigit then some (c :: rest.takeWhile Char.isDigit, rest.dropWhile Char.isDigit)
    else none

/-- One or more digits. -/
def parseDigits1 (cs : List Char) : Option (List Char × List Char) :=
  match cs with
  | [] => none
  | c :: _ =>
    if c.isDigit then some (cs.takeWhile Char.isDigit, cs.dropWhile Char.isDigit)
    else none

/-- Assemble a JSON number.  Integral literals take the arithmetic-free path
so that concrete parses reduce inside the kernel. -/
def mkJsonNum (neg : Bool) (ip : List Char) (fp : List Char) (ex : Option (Bool × List Char)) : ℚ :=
  match fp, ex with
  | [], none =>
    let n : ℚ := (natFromDigits ip : ℕ)
    if neg then -n else n
  | _, _ =>
    let mant : ℚ := (natFromDigits ip : ℕ) + ((natFromDigits fp : ℕ) : ℚ) / (10 : ℚ) ^ fp.length
    let scaled : ℚ :=
      match ex with
      | none => mant
      | some (eneg, eds) =>
        let e : ℤ := if eneg then -(natFromDigits eds : ℤ) else (natFromDigits eds : ℤ)
        mant * (10 : ℚ) ^ e
    if neg then -scaled else scaled

/-- Parse a JSON number starting at `cs` (the leading character is `-` or a
digit). -/
def parseJsonNumber (cs : List Char) : Option (ℚ × List Char) := do
  let (neg, cs1) :=
    match cs with
    | '-' :: rest => (true, rest)
    | _ => (false, cs)
  let (ip, cs2) ← parseIntDigits cs1
  let (fp, cs3) :=
    match cs2 with
    | '.' :: rest =>
      match parseDigits1 rest with
      | some (ds, rem) => (some ds, rem)
      | none => (none, cs2)
    | _ => (some [], cs2)
  match fp with
  | none => none
  | some fpd =>
    let (ex, cs4) :=
      match cs3 with
      | e :: rest =>
        if e == 'e' || e == 'E' then
          let (eneg, rest2) :=
            match rest with
            | '-' :: r => (some true, r)
            | '+' :: r => (some false, r)
            | _ => (some false, rest)
          match eneg, parseDigits1 rest2 with
          | some b, some (ds, rem) => (some (some (b, ds)), rem)
          | _, _ => (none, cs3)
        else (some none, cs3)
      | [] => (some none, cs3)
    match ex with
    | none => none
    | some exv => pure (mkJsonNum neg ip fpd exv, cs4)

mutual

/-- Recursive-descent JSON value, strict grammar of `json.loads` (without
the `NaN`/`Infinity` extensions, which no theorem exercises). -/
def parseJsonValue (fuel : Nat) (cs : List Char) : Option (Json × List Char) :=
  match fuel with
  | 0 => none
  | fuel + 1 =>
    match skipWs cs with
    | [] => none
    | c :: rest =>
      if c == '\x7b' then
        match skipWs rest with
        | '\x7d' :: rem => some (Json.obj [], rem)
        | _ => parseJsonMembers fuel rest []
      else if c == '[' then
        match skipWs rest with
        | ']' :: rem => some (Json.arr [], rem)
        | _ => parseJsonElements fuel rest []
      else if c == '"' then
        match parseJsonStringBody (rest.length + 1) rest with
        | none => none
        | some (body, rem) => some (Json.str (String.mk body), rem)
      else if c == 't' then
        match rest with
        | 'r' :: 'u' :: 'e' :: rem => some (Json.bool true, rem)
        | _ => none
      else if c == 'f' then
        match rest with
        | 'a' :: 'l' :: 's' :: 'e' :: rem => some (Json.bool false, rem)
        | _ => none
      else if c == 'n' then
        match rest with
        | 'u' :: 'l' :: 'l' :: rem => some (Json.null, rem)
        | _ => none
      else if c == '-' || c.isDigit then
        match parseJsonNumber (c :: rest) with
        | none => none
        | some (q, rem) => some (Json.num q, rem)
      else none

/-- Members of a JSON object (after the opening `{`, at least one member). -/
def parseJsonMembers (fuel : Nat) (cs : List Char) (acc : List (String × Json)) :
    Option (Json × List Char) :=
  match fuel with
  | 0 => none
  | fuel + 1 =>
    match skipWs cs with
    | '"' :: rest =>
      match parseJsonStringBody (rest.length + 1) rest with
      | none => none
      | some (key, rest2) =>
        match skipWs rest2 with
        | ':' :: rest3 =>
          match parseJsonValue fuel rest3 with
          | none => none
          | some (v, rest4) =>
            match skipWs rest4 with
            | ',' :: rest5 => parseJsonMembers fuel rest5 (acc ++ [(String.mk key, v)])
            | '\x7d' :: rest5 => some (Json.obj (acc ++ [(String.mk key, v)]), rest5)
            | _ => none
        | _ => none
    | _ => none

/-- Elements of a JSON array (after the opening `[`, at least one element). -/
def parseJsonElements (fuel : Nat) (cs : List Char) (acc : List Json) :
    Option (Json × List Char) :=
  match fuel with
  | 0 => none
  | fuel + 1 =>
    match parseJsonValue fuel cs with
    | none => none
    | some (v, rest) =>
      match skipWs rest with
      | ',' :: rest2 => parseJsonElements fuel rest2 (acc ++ [v])
      | ']' :: rest2 => some (Json.arr (acc ++ [v]), rest2)
      | _ => none

end

/-- Python `json.loads`: one JSON value, surrounded only by whitespace;
`none` models the raised `JSONDecodeError`. -/
def json_loads (s : String) : Option Json :=
  match parseJsonValue (s.toList.length + 1) s.toList with
  | none => none
  | some (v, rest) => if skipWs rest == [] then some v else none

/-! ## Score Extractor (`generate_ai_score`, response-parsing part)

Mirrors `app.py` lines 184–200: when the completion text has a `{` and a
`}`, the slice from the first `{` to the last `}` is passed to
`json.loads`; a successful parse answers `result.get('score')`.  Any
exception from the `try` block (a parse error, or `result` not being a
dict) falls into the digit-run fallback, which clamps into `[1, 10]`.
When either brace is missing no exception is raised, so the function
reaches its final `return None` without ever running the fallback. -/

/-- The slice `content[content.find('{') : content.rfind('}') + 1]`. -/
def braceSlice (content : String) : String :=
  let cs := content.toList
  let s := (firstIdx '\x7b' cs).getD 0
  let e := (lastIdx '\x7d' cs).getD 0 + 1
  String.mk ((cs.drop s).take (e - s))

/-- The `except:` branch: first digit run of the whole completion text,
clamped by `max(1, min(10, score))`. -/
def fallbackScore (content : String) : Option Json :=
  match firstDigitRun content with
  | none => none
  | some n => some (Json.num (max 1 (min 10 n) : ℕ))

/-- Parse a completion text into the value `generate_ai_score` returns for
it (given that the service call itself succeeded). -/
def extract_score_from_content (content : String) : Option Json :=
  if content.toList.contains '\x7b' && content.toList.contains '\x7d' then
    match json_loads (braceSlice content) with
    | some (Json.obj kvs) => objGet kvs "score"
    | some _ => fallbackScore content
    | none => fallbackScore content
  else none

/-! ## Response Formatter and the service-facing functions

The completion service is opaque: it is a parameter of the embedding.  A
`none` reply models any exception raised by the HTTP call (caught by the
surrounding `try`, turning the whole call into `None`). -/

/-- The `"\n".join(f"Q: {q}\nA: {a}" ...)` block. -/
def format_responses (responses : List (String × String)) : String :=
  String.intercalate "\n" (responses.map (fun p => "Q: " ++ p.1 ++ "\nA: " ++ p.2))

/-- The eight section names that have a scoring prompt in `config`
(`section_prompts` in `generate_ai_score`); the `Basic` category's
`Section 3: AI Integration & Business Operations` has none. -/
def promptSections : List String :=
  ["Section 1: Company Profile & Strategic Alignment",
   "Section 2: AI Capabilities & Technical Maturity",
   "Section 3: Government AI Integration & Contract Performance",
   "Section 3: AI Adoption & Compliance in Healthcare Settings",
   "Section 3: AI Integration & Financial Services Delivery",
   "Section 4: Partnerships, Ecosystem & Industry Engagement",
   "Section 5: AI Talent, Culture & Organizational Readiness",
   "Section 6: Future Readiness & Differentiators"]

/-- A scoring-service oracle: section name and formatted response block in,
completion text out (`none` = transport/auth/service failure). -/
abbrev ScoreSvc := String → String → Option String

/-- A plan-service oracle: section name, formatted response block, score
and category label in, plan text out. -/
abbrev PlanSvc := String → String → Json → String → Option String

/-- The scoring call `generate_ai_score(section, responses)`. -/
def generate_ai_score (svc : ScoreSvc) (sec : String) (responses : List (String × String)) :
    Option Json :=
  if promptSections.contains sec then
    match svc sec (format_responses responses) with
    | none => none
    | some content => extract_score_from_content content
  else none

/-- The eight section names with a Get-Well-Plan prompt (`getwell_prompts`
in `generate_ai_getwell_plan`): the same eight as `promptSections`. -/
def getwellSections : List String := promptSections

/-- `company_type or 'Unknown'`. -/
def companyTypeOrUnknown : Option String → String
  | none => "Unknown"
  | some s => if s == "" then "Unknown" else s

/-- The plan call `generate_ai_getwell_plan(section, responses, score,
company_type)`; the reply is returned `.strip()`-ped. -/
def generate_ai_getwell_plan (svc : PlanSvc) (sec : String)
    (responses : List (String × String)) (score : Json) (company_type : Option String) :
    Option String :=
  if getwellSections.contains sec then
    match svc sec (format_responses responses) score (companyTypeOrUnknown company_type) with
    | none => none
    | some content => some (pyStrip content)
  else none

/-! ## Data model -/

/-- A row of the `assessment` table. -/
structure Assessment where
  id : Nat
  company_id : Nat
  sec : String
  question : String
  answer : Option String
  score : Option Json

/-- A row of the `get_well_plan` table. -/
structure GetWellPlan where
  company_id : Nat
  sec : String
  plan_text : Option String

/-- A row of the `company` table (the profile fields the import updates). -/
structure Company where
  id : Nat
  name : String
  annual_revenue : Option String
  employee_count : Option String
  company_type : Option String
  naics_codes : Option String

/-- The persistent store. -/
structure DB where
  companies : List Company
  assessments : List Assessment
  getwell_plans : List GetWellPlan

/-- `Company.query.get(company_id)`. -/
def companyById (db : DB) (company_id : Nat) : Option Company :=
  db.companies.find? (fun c => c.id == company_id)

/-- The plan-marker test `'Get-Well Plan' in question`. -/
def isPlanMarker (question : String) : Bool :=
  strContains question "Get-Well Plan"

/-! ## Derived scores -/

/-- The numeric value a stored score contributes to Python's `sum` (`bool`
counts as `0`/`1`; `none` models the `TypeError` raised on any other
value). -/
def scoreAddVal : Json → Option ℚ
  | Json.num q => some q
  | Json.bool b => some (if b then 1 else 0)
  | _ => none

/-- `sum(a.score for a in scored_assessments)`; `none` models a raised
`TypeError`. -/
def sumScores : List Json → Option ℚ
  | [] => some 0
  | j :: rest =>
    match scoreAddVal j, sumScores rest with
    | some q, some s => some (q + s)
    | _, _ => none

/-- `get_section_score(company_id, section)`: mean of the non-null scores
of the section, `none` when nothing is scored; `Except.error` models a
propagating `TypeError` from a non-numeric stored score. -/
def get_section_score (db : DB) (company_id : Nat) (sec : String) :
    Except Unit (Option ℚ) :=
  let assessments := db.assessments.filter
    (fun a => a.company_id == company_id && a.sec == sec)
  let scored := assessments.filterMap (fun a => a.score)
  if scored.isEmpty then Except.ok none
  else
    match sumScores scored with
    | none => Except.error ()
    | some s => Except.ok (some (s / scored.length))

/-- The four base sections of `get_company_sections`. -/
def baseSections : List String :=
  ["Section 1: Company Profile & Strategic Alignment",
   "Section 2: AI Capabilities & Technical Maturity",
   "Section 4: Partnerships, Ecosystem & Industry Engagement",
   "Section 5: AI Talent, Culture & Organizational Readiness"]

/-- The category-specific `Section 3` inserted at index 2, chosen by the
company-type label; every unrecognized or missing label falls back to the
GovCon variant. -/
def sectionThreeFor (company_type : Option String) : String :=
  match company_type with
  | some t =>
    if t == "Healthcare" then "Section 3: AI Adoption & Compliance in Healthcare Settings"
    else if t == "Finance" || t == "FS" || t == "FTS" || t == "Financial Transaction Services" then
      "Section 3: AI Integration & Financial Services Delivery"
    else if t == "Technology & Government" || t == "T&G" then
      "Section 3: Government AI Integration & Contract Performance"
    else if t == "Basic" then "Section 3: AI Integration & Business Operations"
    else "Section 3: Government AI Integration & Contract Performance"
  | none => "Section 3: Government AI Integration & Contract Performance"

/-- `base_sections.insert(2, x)` for the concrete four-element base list. -/
def sectionsForType (company_type : Option String) : List String :=
  baseSections.take 2 ++ [sectionThreeFor company_type] ++ baseSections.drop 2

/-- `get_company_sections(company_id)`: `[]` for a missing company, else
the four base sections with the category section inserted at index 2. -/
def get_company_sections (db : DB) (company_id : Nat) : List String :=
  match companyById db company_id with
  | none => []
  | some c => sectionsForType c.company_type

/-- `get_overall_score`, step one: the non-`None` section scores, in
section order (a raised `TypeError` propagates). -/
def collectSectionScores (db : DB) (company_id : Nat) : List String → Except Unit (List ℚ)
  | [] => Except.ok []
  | s :: rest =>
    match get_section_score db company_id s with
    | Except.error e => Except.error e
    | Except.ok none => collectSectionScores db company_id rest
    | Except.ok (some q) =>
      match collectSectionScores db company_id rest with
      | Except.error e => Except.error e
      | Except.ok l => Except.ok (q :: l)

/-- `get_overall_score(company_id)`: the mean of the per-section means of
the company's resolved sections. -/
def get_overall_score (db : DB) (company_id : Nat) : Except Unit (Option ℚ) :=
  match collectSectionScores db company_id (get_company_sections db company_id) with
  | Except.error e => Except.error e
  | Except.ok [] => Except.ok none
  | Except.ok (q :: l) => Except.ok (some ((q :: l).sum / (q :: l).length))

/-! ## Assessment Orchestrator (`calculate_all_section_scores`)

The per-section loop body of lines 259–308: gather answered, non-plan
questions; on a score, stamp it on every non-plan assessment of the
section and upsert the Get-Well Plan; on no score (or no responses) leave
the section untouched and continue.  The in-memory ORM state is threaded
explicitly; the single commit at the end of the run is the resulting
state. -/

/-- The response list of lines 266–267: answered (`a.answer` truthy and
non-blank after `strip`), non-plan-marker questions of one section. -/
def responsesFor (db : DB) (cid : Nat) (sec : String) : List (String × String) :=
  (db.assessments.filter (fun a => a.company_id == cid && a.sec == sec)).filterMap
    (fun a =>
      match a.answer with
      | none => none
      | some ans =>
        if ans != "" && !isPlanMarker a.question && pyStrip ans != "" then
          some (a.question, ans)
        else none)

/-- Stamp a freshly extracted score on every non-plan-marker assessment of
the section (lines 274–276). -/
def assignSectionScore (db : DB) (cid : Nat) (sec : String) (v : Json) : DB :=
  { db with
    assessments := db.assessments.map (fun a =>
      if a.company_id == cid && a.sec == sec && !isPlanMarker a.question then
        { a with score := some v }
      else a) }

/-- Does a plan row belong to the `(company, section)` pair? -/
def planKey (cid : Nat) (sec : String) (pl : GetWellPlan) : Bool :=
  pl.company_id == cid && pl.sec == sec

/-- Replace the first list entry satisfying `p` by `f` of it. -/
def updateFirstWith (p : GetWellPlan → Bool) (f : GetWellPlan → GetWellPlan) :
    List GetWellPlan → List GetWellPlan
  | [] => []
  | x :: xs => if p x then f x :: xs else x :: updateFirstWith p f xs

/-- The update-or-create of lines 282–297: overwrite the text of the first
existing plan row of the pair, else append a new row. -/
def upsertPlan (db : DB) (cid : Nat) (sec : String) (text : String) : DB :=
  if db.getwell_plans.any (planKey cid sec) then
    { db with
      getwell_plans := updateFirstWith (planKey cid sec)
        (fun pl => { pl with plan_text := some text }) db.getwell_plans }
  else
    { db with getwell_plans := db.getwell_plans ++ [⟨cid, sec, some text⟩] }

/-- One iteration of the section loop; the state is the database plus the
accumulated `results` association list. -/
def scoreSectionStep (o1 : ScoreSvc) (o2 : PlanSvc) (cid : Nat) (ctype : Option String)
    (st : DB × List (String × Json)) (sec : String) : DB × List (String × Json) :=
  let db := st.1
  let responses := responsesFor db cid sec
  if responses.isEmpty then st
  else
    match generate_ai_score o1 sec responses with
    | none => st
    | some v =>
      let db1 := assignSectionScore db cid sec v
      let db2 :=
        match generate_ai_getwell_plan o2 sec responses v ctype with
        | none => db1
        | some t => upsertPlan db1 cid sec t
      (db2, st.2 ++ [(sec, v)])

/-- Fold the section loop over a section list. -/
def runSections (o1 : ScoreSvc) (o2 : PlanSvc) (cid : Nat) (ctype : Option String)
    (secs : List String) (st : DB × List (String × Json)) : DB × List (String × Json) :=
  secs.foldl (scoreSectionStep o1 o2 cid ctype) st

/-- `calculate_all_section_scores(company_id)`: resolve the sections once,
then run the loop; returns the committed state and the `results` map. -/
def calculate_all_section_scores (o1 : ScoreSvc) (o2 : PlanSvc) (db : DB) (cid : Nat) :
    DB × List (String × Json) :=
  let sections := get_company_sections db cid
  let ctype := (companyById db cid).bind (fun c => c.company_type)
  runSections o1 o2 cid ctype sections (db, [])

/-- The scoring part of the `/api/update_assessment` route: store the new
answer, then rescore the one section exactly as the bulk loop does
(`none` models the 404 on an unknown assessment id). -/
def update_assessment (o1 : ScoreSvc) (o2 : PlanSvc) (db : DB) (aid : Nat)
    (ans : Option String) : Option DB :=
  match db.assessments.find? (fun a => a.id == aid) with
  | none => none
  | some a0 =>
    let db1 := { db with
      assessments := db.assessments.map (fun a =>
        if a.id == aid then { a with answer := ans } else a) }
    let cid := a0.company_id
    let sec := a0.sec
    let responses := responsesFor db1 cid sec
    if responses.isEmpty then some db1
    else
      match generate_ai_score o1 sec responses with
      | none => some db1
      | some v =>
        let db2 := assignSectionScore db1 cid sec v
        let ctype := (companyById db1 cid).bind (fun c => c.company_type)
        match generate_ai_getwell_plan o2 sec responses v ctype with
        | none => some db2
        | some t => some (upsertPlan db2 cid sec t)

/-! ## CSV import (`upload_csv`, lines 472–578)

The model covers the committed import itself — company-name resolution,
profile extraction, the duplicate-company guard, the delete-then-insert
replacement of the company's rows; the automatic re-scoring the route
performs afterwards is `calculate_all_section_scores`, composed
separately.  An empty CSV cell (a pandas `NaN`, stored as SQL `NULL`) is
modelled as an absent answer. -/

/-- One data row of the uploaded CSV. -/
structure CsvRow where
  sec : String
  question : String
  answer : Option String

/-- Answer of the first row carrying the given literal question text
(`df[df['Question'] == q].iloc[0]['Answer']`). -/
def profileField (df : List CsvRow) (q : String) : Option String :=
  (df.find? (fun r => r.question == q)).bind (fun r => r.answer)

/-- The two recognized `Company Type: ...` question variants, old format
first (lines 495–500). -/
def extractCompanyType (df : List CsvRow) : Option String :=
  match df.find? (fun r =>
      r.question == "Company Type: GovCon Healthcare Finance or Industrial") with
  | some r => r.answer
  | none =>
    match df.find? (fun r =>
        r.question ==
          "Company Type: Basic, Financial Transaction Services, Healthcare, Technology & Government") with
    | some r => r.answer
    | none => none

/-- The boilerplate phrases of the synthetic-name detection. -/
def syntheticIndicators : List String :=
  ["Our internal R&D team",
   "We partner with AWS",
   "Minimal progress on model management",
   "We lack structured AI governance",
   "We plan to double our AI staff",
   "We are actively expanding"]

/-- `os.path.splitext(filename)[0]` (no directory separators: the name has
passed `secure_filename`). -/
def splitextRoot (filename : String) : String :=
  let cs := filename.toList
  match lastIdx '.' cs with
  | none => filename
  | some i => if (cs.take i).any (fun c => c != '.') then String.mk (cs.take i) else filename

/-- Python `str.title()` (ASCII): a letter after a non-letter is
uppercased, a letter after a letter is lowercased. -/
def pyTitleGo : Bool → List Char → List Char
  | _, [] => []
  | prevAlpha, c :: cs =>
    if c.isAlpha then (if prevAlpha then c.toLower else c.toUpper) :: pyTitleGo true cs
    else c :: pyTitleGo false cs

/-- Python `str.title()`. -/
def pyTitle (s : String) : String := String.mk (pyTitleGo false s.toList)

/-- `base_filename.replace('_', ' ')`. -/
def underscoresToSpaces (s : String) : String :=
  String.mk (s.toList.map (fun c => if c == '_' then ' ' else c))

/-- The resolved company name of an upload (lines 473–527): the `Company
Name` row's answer, replaced by a filename-derived name when it matches a
synthetic-data indicator; `none` models the `Company Name not found`
abort. -/
def resolve_company_name (df : List CsvRow) (filename : String) : Option String :=
  match (df.find? (fun r => r.question == "Company Name")).bind (fun r => r.answer) with
  | none => none
  | some nm =>
    if syntheticIndicators.any (fun ind => strContains nm ind) then
      let base := splitextRoot filename
      if strContains base "company_" then
        some ("Company " ++ ((base.splitOn "_").getD 1 ""))
      else some (pyTitle (underscoresToSpaces base))
    else some nm

/-- A fresh primary key for the `company` table. -/
def freshCompanyId (db : DB) : Nat :=
  (db.companies.map (fun c => c.id)).foldr max 0 + 1

/-- A fresh primary key for the `assessment` table. -/
def freshAssessmentId (db : DB) : Nat :=
  (db.assessments.map (fun a => a.id)).foldr max 0 + 1

/-- The profile update of lines 544–552: each field is overwritten only by
a truthy (present, non-empty) CSV value. -/
def applyProfile (df : List CsvRow) (c : Company) : Company :=
  let upd := fun (cur : Option String) (v : Option String) =>
    match v with
    | some s => if s != "" then some s else cur
    | none => cur
  { c with
    annual_revenue := upd c.annual_revenue (profileField df "Revenue"),
    employee_count := upd c.employee_count (profileField df "Number of Employees"),
    company_type := upd c.company_type (extractCompanyType df),
    naics_codes := upd c.naics_codes (profileField df "Primary NAICS Codes (Only GovCon)") }

/-- The insert loop of lines 559–576: a plan-marker row becomes a
`GetWellPlan` record, every other row an unscored `Assessment` record. -/
def insertCsvRow (cid : Nat) (db : DB) (r : CsvRow) : DB :=
  if isPlanMarker r.question then
    { db with getwell_plans := db.getwell_plans ++ [⟨cid, r.sec, r.answer⟩] }
  else
    { db with
      assessments := db.assessments ++ [⟨freshAssessmentId db, cid, r.sec, r.question, r.answer, none⟩] }

/-- Fold of the insert loop over the CSV rows, in order. -/
def insertCsvRows (cid : Nat) (df : List CsvRow) (db : DB) : DB :=
  df.foldl (insertCsvRow cid) db

/-- Outcome of an upload request. -/
inductive UploadOutcome where
  | missingCompanyName : UploadOutcome
  | companyExists : String → UploadOutcome
  | imported : String → UploadOutcome
  deriving DecidableEq

/-- `upload_csv` (the committed import of lines 472–578): resolve the
name; an existing company without the `confirmed` flag aborts with the
`COMPANY_EXISTS` outcome and no writes; otherwise update or create the
company, delete all of its assessment and plan rows, and insert the CSV
rows. -/
def upload_csv (df : List CsvRow) (filename : String) (confirmed : Bool) (db : DB) :
    UploadOutcome × DB :=
  match resolve_company_name df filename with
  | none => (UploadOutcome.missingCompanyName, db)
  | some nm =>
    match db.companies.find? (fun c => c.name == nm) with
    | some c =>
      if !confirmed then (UploadOutcome.companyExists nm, db)
      else
        let c1 := applyProfile df c
        let db1 := { db with
          companies := db.companies.map (fun x : Company => if x.id == c.id then c1 else x) }
        let db2 := { db1 with
          assessments := db1.assessments.filter (fun a => a.company_id != c.id),
          getwell_plans := db1.getwell_plans.filter (fun p => p.company_id != c.id) }
        (UploadOutcome.imported nm, insertCsvRows c.id df db2)
    | none =>
      let cid := freshCompanyId db
      let c1 := applyProfile df ⟨cid, nm, none, none, none, none⟩
      let db1 := { db with companies := db.companies ++ [c1] }
      let db2 := { db1 with
        assessments := db1.assessments.filter (fun a => a.company_id != cid),
        getwell_plans := db1.getwell_plans.filter (fun p => p.company_id != cid) }
      (UploadOutcome.imported nm, insertCsvRows cid df db2)

/-- The response list read off the scoring-independent view. -/
def respOfStatic (cid : Nat) (sec : String) :
    List (Nat × Nat × String × String × Option String) → List (String × String) :=
  List.filterMap (fun t =>
    if t.2.1 == cid && t.2.2.1 == sec then
      match t.2.2.2.2 with
      | none => none
      | some ans =>
        if ans != "" && !isPlanMarker t.2.2.2.1 && pyStrip ans != "" then
          some (t.2.2.2.1, ans)
        else none
    else none)

/-- The id-independent content of an assessment row. -/
def assessProj (a : Assessment) : Nat × String × String × Option String × Option Json :=
  (a.company_id, a.sec, a.question, a.answer, a.score)

/-! ## Concrete fixtures for the claim instances -/

/-- Section name shorthand. -/
def sn1 : String := "Section 1: Company Profile & Strategic Alignment"

/-- Section name shorthand. -/
def sn2 : String := "Section 2: AI Capabilities & Technical Maturity"

/-- Section name shorthand. -/
def sn3G : String := "Section 3: Government AI Integration & Contract Performance"

/-- Section name shorthand. -/
def sn4 : String := "Section 4: Partnerships, Ecosystem & Industry Engagement"

/-- Section name shorthand. -/
def sn5 : String := "Section 5: AI Talent, Culture & Organizational Readiness"

/-- Section name shorthand. -/
def sn6 : String := "Section 6: Future Readiness & Differentiators"

/-- The category labels `get_company_sections` recognizes. -/
def knownCategoryLabels : List String :=
  ["Healthcare", "Finance", "FS", "FTS", "Financial Transaction Services",
   "Technology & Government", "T&G", "Basic"]

/-- A company with three scored sections whose means are 8, 6 and 4; the
first section holds two questions so a question-weighted average would
differ from the section-weighted one. -/
def dbC3 : DB :=
  { companies := [⟨1, "Acme Analytics", none, none, some "T&G", none⟩],
    assessments :=
      [⟨1, 1, sn1, "Q1", some "A1", some (Json.num 8)⟩,
       ⟨2, 1, sn1, "Q2", some "A2", some (Json.num 8)⟩,
       ⟨3, 1, sn2, "Q3", some "A3", some (Json.num 6)⟩,
       ⟨4, 1, sn4, "Q4", some "A4", some (Json.num 4)⟩],
    getwell_plans := [] }

/-- A Future-Readiness assessment scored 9. -/
def futureRow : Assessment := ⟨9, 1, sn6, "QF", some "AF", some (Json.num 9)⟩

/-- One answered question, one blank answer, one plan-marker row. -/
def dbC10 : DB :=
  { companies := [⟨1, "Mean Co", none, none, none, none⟩],
    assessments :=
      [⟨1, 1, sn1, "Q1", some "A1", none⟩,
       ⟨2, 1, sn1, "Q2", some "", none⟩,
       ⟨3, 1, sn1, "Get-Well Plan row", some "old plan", none⟩],
    getwell_plans := [] }

/-- A completion service answering every prompt with a JSON score of 4. -/
def svc4 : ScoreSvc := fun _ _ => some "\x7b\"score\": 4\x7d"

/-- A plan service that always fails. -/
def planNone : PlanSvc := fun _ _ _ _ => none

/-- One answered question, unscored. -/
def dbK10 : DB :=
  { companies := [⟨1, "Str Co", none, none, none, none⟩],
    assessments := [⟨1, 1, sn1, "Q1", some "A1", none⟩],
    getwell_plans := [] }

/-- A completion service whose JSON `score` value is a string. -/
def svcStr : ScoreSvc := fun _ _ => some "\x7b\"score\": \"ok\"\x7d"

/-- One answered question, unscored. -/
def dbC6 : DB :=
  { companies := [⟨1, "Overflow Co", none, none, none, none⟩],
    assessments := [⟨1, 1, sn1, "Q1", some "A1", none⟩],
    getwell_plans := [] }

/-- A completion service answering with the out-of-range JSON score 12. -/
def svc12 : ScoreSvc := fun _ _ => some "\x7b\"score\": 12\x7d"

/-- One answered question, no plans yet. -/
def dbC5 : DB :=
  { companies := [⟨1, "Plan Co", none, none, none, none⟩],
    assessments := [⟨1, 1, sn1, "Q1", some "A1", none⟩],
    getwell_plans := [] }

/-- A completion service answering every prompt with a JSON score of 3. -/
def svc3 : ScoreSvc := fun _ _ => some "\x7b\"score\": 3\x7d"

/-- A completion service answering every prompt with a JSON score of 5. -/
def svc5 : ScoreSvc := fun _ _ => some "\x7b\"score\": 5\x7d"

/-- A plan service producing the text `plan one`. -/
def planOne : PlanSvc := fun _ _ _ _ => some "plan one"

/-- A plan service producing the text `plan two`. -/
def planTwo : PlanSvc := fun _ _ _ _ => some "plan two"

/-- The state after scoring `dbC5` once. -/
def dbC5run1 : DB := (calculate_all_section_scores svc3 planOne dbC5 1).1

/-- The empty store. -/
def dbEmpty : DB := { companies := [], assessments := [], getwell_plans := [] }

/-- An upload carrying two plan-marker rows for the same section. -/
def dfC5 : List CsvRow :=
  [⟨sn1, "Company Name", some "Dup Co"⟩,
   ⟨sn1, "Get-Well Plan A", some "p1"⟩,
   ⟨sn1, "Get-Well Plan B", some "p2"⟩]

/-- An upload for the already-existing company `Acme Analytics`. -/
def dfC8 : List CsvRow :=
  [⟨sn1, "Company Name", some "Acme Analytics"⟩,
   ⟨sn1, "Q1", some "A1"⟩,
   ⟨sn2, "Get-Well Plan B", some "plan b"⟩]

/-- A store already holding `Acme Analytics` with one assessment and one
plan. -/
def dbC8 : DB :=
  { companies := [⟨1, "Acme Analytics", none, none, some "T&G", none⟩],
    assessments := [⟨1, 1, sn1, "OldQ", some "OldA", some (Json.num 2)⟩],
    getwell_plans := [⟨1, sn1, some "old plan"⟩] }

/-- A company whose category label is outside the known vocabulary. -/
def dbC4 : DB :=
  { companies := [⟨7, "Uncat Co", none, none, some "Industrial", none⟩],
    assessments := [],
    getwell_plans := [] }

/-- Two answered sections and one pre-existing plan. -/
def dbC9 : DB :=
  { companies := [⟨1, "Fail Co", none, none, none, none⟩],
    assessments :=
      [⟨1, 1, sn1, "Q1", some "A1", none⟩,
       ⟨2, 1, sn2, "Q2", some "A2", none⟩],
    getwell_plans := [⟨1, sn1, some "keep"⟩] }

/-- A completion service that fails on Section 1 and scores 2 elsewhere. -/
def svcFailS1 : ScoreSvc := fun s _ => if s == sn1 then none else some "\x7b\"score\": 2\x7d"

/-- A scored question next to an unscored plan-marker row. -/
def dbC7 : DB :=
  { companies := [⟨1, "Marker Co", none, none, none, none⟩],
    assessments :=
      [⟨1, 1, sn1, "Q1", some "A1", some (Json.num 5)⟩,
       ⟨2, 1, sn1, "Get-Well Plan row", some "text", none⟩],
    getwell_plans := [] }

/-! ## Derived views and invariants used by the theorems -/

/-- The assessments of one `(company, section)` pair, in store order (the
query both `get_section_score` and the orchestrator issue). -/
def secSlice (db : DB) (cid : Nat) (sec : String) : List Assessment :=
  db.assessments.filter (fun a => a.company_id == cid && a.sec == sec)

/-- The plan rows of one `(company, section)` pair. -/
def planSlice (db : DB) (cid : Nat) (sec : String) : List GetWellPlan :=
  db.getwell_plans.filter (planKey cid sec)

/-- At most one plan row per `(company, section)` pair. -/
def PlanInv (db : DB) : Prop :=
  ∀ cid sec, db.getwell_plans.countP (planKey cid sec) ≤ 1

/-- The scoring-independent part of an assessment row. -/
def staticOf (a : Assessment) : Nat × Nat × String × String × Option String :=
  (a.id, a.company_id, a.sec, a.question, a.answer)

/-- The scoring-independent view of the assessment table. -/
def staticView (db : DB) : List (Nat × Nat × String × String × Option String) :=
  db.assessments.map staticOf

lemma get_section_score_eq (db : DB) (cid : Nat) (sec : String) :
    get_section_score db cid sec =
      (let scored := (secSlice db cid sec).filterMap (fun a => a.score)
       if scored.isEmpty then Except.ok none
       else
         match sumScores scored with
         | none => Except.error ()
         | some s => Except.ok (some (s / scored.length))) := rfl

lemma responsesFor_eq (db : DB) (cid : Nat) (sec : String) :
    responsesFor db cid sec =
      (secSlice db cid sec).filterMap (fun a =>
        match a.answer with
        | none => none
        | some ans =>
          if ans != "" && !isPlanMarker a.question && pyStrip ans != "" then
            some (a.question, ans)
          else none) := rfl

/-! ### Generic list lemmas -/

lemma updateFirstWith_countP (p p' : GetWellPlan → Bool) (f : GetWellPlan → GetWellPlan)
    (hpf : ∀ x, p (f x) = p x) :
    ∀ l : List GetWellPlan, (updateFirstWith p' f l).countP p = l.countP p := by
  intro l
  induction l with
  | nil => rfl
  | cons x xs ih =>
    by_cases hx : p' x = true
    · simp [updateFirstWith, hx, List.countP_cons, hpf]
    · simp only [updateFirstWith, hx]
      simp [List.countP_cons, ih]

lemma updateFirstWith_filter_of_disjoint (p p' : GetWellPlan → Bool)
    (f : GetWellPlan → GetWellPlan) (hpf : ∀ x, p (f x) = p x)
    (hdisj : ∀ x, p' x = true → p x = false) :
    ∀ l : List GetWellPlan, (updateFirstWith p' f l).filter p = l.filter p := by
  intro l
  induction l with
  | nil => rfl
  | cons x xs ih =>
    by_cases hx : p' x = true
    · simp [updateFirstWith, hx, List.filter_cons, hpf, hdisj x hx]
    · simp only [updateFirstWith, hx]
      simp [List.filter_cons, ih]

lemma updateFirstWith_filter_of_inv (p : GetWellPlan → Bool) (f : GetWellPlan → GetWellPlan)
    (hpf : ∀ x, p (f x) = p x) :
    ∀ l : List GetWellPlan, l.countP p ≤ 1 → l.any p = true →
      (updateFirstWith p f l).filter p = (l.filter p).map f := by
  intro l
  induction l with
  | nil => intro _ h; simp at h
  | cons x xs ih =>
    intro hcount hany
    by_cases hx : p x = true
    · have hzero : xs.countP p = 0 := by
        have h2 : (x :: xs).countP p = xs.countP p + 1 := by simp [List.countP_cons, hx]
        omega
      have hnil : xs.filter p = [] := by
        rw [List.filter_eq_nil_iff]
        intro a ha
        have := List.countP_eq_zero.mp hzero a ha
        simpa using this
      simp [updateFirstWith, hx, List.filter_cons, hpf, hnil]
    · have hx' : p x = false := by simpa using hx
      have hany' : xs.any p = true := by
        simp [List.any_cons, hx'] at hany
        simpa using hany
      have hcount' : xs.countP p ≤ 1 := by
        simp [List.countP_cons, hx'] at hcount
        omega
      simp [updateFirstWith, hx', List.filter_cons, ih hcount' hany']

/-! ### Section-list facts -/

lemma sectionsForType_cases (ct : Option String) :
    sectionsForType ct =
      ["Section 1: Company Profile & Strategic Alignment",
       "Section 2: AI Capabilities & Technical Maturity",
       sectionThreeFor ct,
       "Section 4: Partnerships, Ecosystem & Industry Engagement",
       "Section 5: AI Talent, Culture & Organizational Readiness"] := rfl

lemma sectionThreeFor_mem (ct : Option String) :
    sectionThreeFor ct ∈
      ["Section 3: Government AI Integration & Contract Performance",
       "Section 3: AI Adoption & Compliance in Healthcare Settings",
       "Section 3: AI Integration & Financial Services Delivery",
       "Section 3: AI Integration & Business Operations"] := by
  cases ct with
  | none => simp [sectionThreeFor]
  | some t =>
    simp only [sectionThreeFor]
    split_ifs <;> simp

lemma sectionThreeFor_ne_future (ct : Option String) :
    sectionThreeFor ct ≠ "Section 6: Future Readiness & Differentiators" := by
  have h3 := sectionThreeFor_mem ct
  simp only [List.mem_cons, List.not_mem_nil, or_false] at h3
  rcases h3 with h | h | h | h <;> rw [h] <;> decide

lemma sectionsForType_not_future (ct : Option String) :
    "Section 6: Future Readiness & Differentiators" ∉ sectionsForType ct := by
  have h3 := sectionThreeFor_ne_future ct
  rw [sectionsForType_cases]
  intro hmem
  simp only [List.mem_cons, List.not_mem_nil, or_false] at hmem
  rcases hmem with h | h | h | h | h
  · exact absurd h (by decide)
  · exact absurd h (by decide)
  · exact h3 h.symm
  · exact absurd h (by decide)
  · exact absurd h (by decide)

lemma sectionsForType_nodup (ct : Option String) :
    (sectionsForType ct).Nodup := by
  have h3 := sectionThreeFor_mem ct
  simp only [List.mem_cons, List.not_mem_nil, or_false] at h3
  rw [sectionsForType_cases]
  rcases h3 with h | h | h | h <;> rw [h] <;> decide

lemma get_company_sections_not_future (db : DB) (cid : Nat) :
    "Section 6: Future Readiness & Differentiators" ∉ get_company_sections db cid := by
  unfold get_company_sections
  cases companyById db cid with
  | none => simp
  | some c => exact sectionsForType_not_future c.company_type

lemma get_company_sections_nodup (db : DB) (cid : Nat) :
    (get_company_sections db cid).Nodup := by
  unfold get_company_sections
  cases companyById db cid with
  | none => simp
  | some c => exact sectionsForType_nodup c.company_type

/-! ### Preservation lemmas for the orchestrator -/

lemma filter_map_eq_filter {α : Type} (g : α → α) (p : α → Bool) (l : List α)
    (h1 : ∀ a, p (g a) = p a) (h2 : ∀ a, p a = true → g a = a) :
    (l.map g).filter p = l.filter p := by
  induction l with
  | nil => rfl
  | cons x xs ih =>
    by_cases hx : p x = true
    · simp [List.filter_cons, h1, hx, h2 x hx, ih]
    · have hx' : p x = false := by simpa using hx
      simp [List.filter_cons, h1, hx', ih]

lemma filter_map_comm {α : Type} (g : α → α) (p : α → Bool) (l : List α)
    (h1 : ∀ a, p (g a) = p a) :
    (l.map g).filter p = (l.filter p).map g := by
  induction l with
  | nil => rfl
  | cons x xs ih =>
    by_cases hx : p x = true
    · simp [List.filter_cons, h1, hx, ih]
    · have hx' : p x = false := by simpa using hx
      simp [List.filter_cons, h1, hx', ih]

lemma assignSectionScore_assessments (db : DB) (cid : Nat) (sec : String) (v : Json) :
    (assignSectionScore db cid sec v).assessments =
      db.assessments.map (fun a =>
        if a.company_id == cid && a.sec == sec && !isPlanMarker a.question then
          { a with score := some v }
        else a) := rfl

lemma assignSectionScore_plans (db : DB) (cid : Nat) (sec : String) (v : Json) :
    (assignSectionScore db cid sec v).getwell_plans = db.getwell_plans := rfl

lemma assignSectionScore_companies (db : DB) (cid : Nat) (sec : String) (v : Json) :
    (assignSectionScore db cid sec v).companies = db.companies := rfl

lemma upsertPlan_assessments (db : DB) (cid : Nat) (sec : String) (t : String) :
    (upsertPlan db cid sec t).assessments = db.assessments := by
  unfold upsertPlan; split <;> rfl

lemma upsertPlan_companies (db : DB) (cid : Nat) (sec : String) (t : String) :
    (upsertPlan db cid sec t).companies = db.companies := by
  unfold upsertPlan; split <;> rfl

lemma assignSectionScore_staticView (db : DB) (cid : Nat) (sec : String) (v : Json) :
    staticView (assignSectionScore db cid sec v) = staticView db := by
  unfold staticView assignSectionScore
  simp only [List.map_map]
  apply List.map_congr_left
  intro a _
  simp only [Function.comp_apply]
  split <;> rfl

lemma upsertPlan_staticView (db : DB) (cid : Nat) (sec : String) (t : String) :
    staticView (upsertPlan db cid sec t) = staticView db := by
  unfold staticView
  rw [upsertPlan_assessments]

lemma scoreSectionStep_staticView (o1 : ScoreSvc) (o2 : PlanSvc) (cid : Nat)
    (ct : Option String) (st : DB × List (String × Json)) (sec : String) :
    staticView (scoreSectionStep o1 o2 cid ct st sec).1 = staticView st.1 := by
  unfold scoreSectionStep
  cases hresp : (responsesFor st.1 cid sec).isEmpty
  · simp only [hresp, Bool.false_eq_true, if_false]
    cases hscore : generate_ai_score o1 sec (responsesFor st.1 cid sec) with
    | none => rfl
    | some v =>
      cases hplan : generate_ai_getwell_plan o2 sec (responsesFor st.1 cid sec) v ct with
      | none =>
        simp only [hplan]
        exact assignSectionScore_staticView st.1 cid sec v
      | some t =>
        simp only [hplan]
        rw [upsertPlan_staticView, assignSectionScore_staticView]
  · simp [hresp]

lemma scoreSectionStep_companies (o1 : ScoreSvc) (o2 : PlanSvc) (cid : Nat)
    (ct : Option String) (st : DB × List (String × Json)) (sec : String) :
    (scoreSectionStep o1 o2 cid ct st sec).1.companies = st.1.companies := by
  unfold scoreSectionStep
  cases hresp : (responsesFor st.1 cid sec).isEmpty
  · simp only [hresp, Bool.false_eq_true, if_false]
    cases hscore : generate_ai_score o1 sec (responsesFor st.1 cid sec) with
    | none => rfl
    | some v =>
      cases hplan : generate_ai_getwell_plan o2 sec (responsesFor st.1 cid sec) v ct with
      | none =>
        simp only [hplan]
        exact assignSectionScore_companies st.1 cid sec v
      | some t =>
        simp only [hplan]
        rw [upsertPlan_companies, assignSectionScore_companies]
  · simp [hresp]

lemma runSections_append (o1 : ScoreSvc) (o2 : PlanSvc) (cid : Nat) (ct : Option String)
    (xs ys : List String) (st : DB × List (String × Json)) :
    runSections o1 o2 cid ct (xs ++ ys) st =
      runSections o1 o2 cid ct ys (runSections o1 o2 cid ct xs st) := by
  simp [runSections, List.foldl_append]

lemma runSections_staticView (o1 : ScoreSvc) (o2 : PlanSvc) (cid : Nat) (ct : Option String)
    (secs : List String) (st : DB × List (String × Json)) :
    staticView (runSections o1 o2 cid ct secs st).1 = staticView st.1 := by
  induction secs generalizing st with
  | nil => rfl
  | cons s rest ih =>
    simp only [runSections, List.foldl_cons]
    rw [show List.foldl (scoreSectionStep o1 o2 cid ct) (scoreSectionStep o1 o2 cid ct st s) rest
        = runSections o1 o2 cid ct rest (scoreSectionStep o1 o2 cid ct st s) from rfl]
    rw [ih, scoreSectionStep_staticView]

lemma runSections_companies (o1 : ScoreSvc) (o2 : PlanSvc) (cid : Nat) (ct : Option String)
    (secs : List String) (st : DB × List (String × Json)) :
    (runSections o1 o2 cid ct secs st).1.companies = st.1.companies := by
  induction secs generalizing st with
  | nil => rfl
  | cons s rest ih =>
    simp only [runSections, List.foldl_cons]
    rw [show List.foldl (scoreSectionStep o1 o2 cid ct) (scoreSectionStep o1 o2 cid ct st s) rest
        = runSections o1 o2 cid ct rest (scoreSectionStep o1 o2 cid ct st s) from rfl]
    rw [ih, scoreSectionStep_companies]

lemma responsesFor_eq_static (db : DB) (cid : Nat) (sec : String) :
    responsesFor db cid sec = respOfStatic cid sec (staticView db) := by
  unfold responsesFor respOfStatic staticView staticOf
  induction db.assessments with
  | nil => rfl
  | cons a l ih =>
    by_cases hp : (a.company_id == cid && a.sec == sec) = true
    · simp only [List.filter_cons, List.map_cons, List.filterMap_cons, hp, if_true]
      cases a.answer with
      | none => simpa using ih
      | some ans =>
        by_cases hq : (ans != "" && !isPlanMarker a.question && pyStrip ans != "") = true
        · simp only [hq, if_true]
          simpa using ih
        · have hq' := eq_false_of_ne_true hq
          simp only [hq', if_false]
          simpa using ih
    · have hp' := eq_false_of_ne_true hp
      simp only [List.filter_cons, List.map_cons, List.filterMap_cons, hp', if_false]
      simpa using ih

lemma responsesFor_congr {db1 db2 : DB} (cid : Nat) (sec : String)
    (h : staticView db1 = staticView db2) :
    responsesFor db1 cid sec = responsesFor db2 cid sec := by
  rw [responsesFor_eq_static, responsesFor_eq_static, h]

/-! ### Off-section slices are untouched -/

lemma assignSectionScore_secSlice_other (db : DB) (cid cid2 : Nat) (s' sec : String)
    (v : Json) (hne : sec ≠ s') :
    secSlice (assignSectionScore db cid s' v) cid2 sec = secSlice db cid2 sec := by
  unfold secSlice
  rw [assignSectionScore_assessments]
  apply filter_map_eq_filter
  · intro a; split <;> rfl
  · intro a ha
    have hsec : a.sec = sec := by
      have := (Bool.and_eq_true _ _).mp ha
      exact eq_of_beq this.2
    have hcond : (a.company_id == cid && a.sec == s' && !isPlanMarker a.question) = false := by
      have : (a.sec == s') = false := by
        rw [hsec]
        exact beq_eq_false_iff_ne.mpr hne
      simp [this]
    rw [hcond]
    simp

lemma upsertPlan_planSlice_other (db : DB) (cid cid2 : Nat) (s' sec : String) (t : String)
    (hne : sec ≠ s') :
    planSlice (upsertPlan db cid s' t) cid2 sec = planSlice db cid2 sec := by
  have hdisj : ∀ x, planKey cid s' x = true → planKey cid2 sec x = false := by
    intro x hx
    have hxs : x.sec = s' := eq_of_beq ((Bool.and_eq_true _ _).mp hx).2
    have : (x.sec == sec) = false := by
      rw [hxs]
      exact beq_eq_false_iff_ne.mpr (fun h => hne h.symm)
    simp [planKey, this]
  unfold upsertPlan planSlice
  split
  · show List.filter (planKey cid2 sec) (updateFirstWith (planKey cid s')
        (fun pl => { pl with plan_text := some t }) db.getwell_plans) =
      List.filter (planKey cid2 sec) db.getwell_plans
    exact updateFirstWith_filter_of_disjoint (planKey cid2 sec) (planKey cid s')
      (fun pl => { pl with plan_text := some t }) (fun x => rfl) hdisj db.getwell_plans
  · simp only [List.filter_append]
    have : planKey cid2 sec ⟨cid, s', some t⟩ = false := hdisj _ (by simp [planKey])
    simp [this]

lemma scoreSectionStep_secSlice_other (o1 : ScoreSvc) (o2 : PlanSvc) (cid cid2 : Nat)
    (ct : Option String) (st : DB × List (String × Json)) (s' sec : String) (hne : sec ≠ s') :
    secSlice (scoreSectionStep o1 o2 cid ct st s').1 cid2 sec = secSlice st.1 cid2 sec := by
  unfold scoreSectionStep
  cases hresp : (responsesFor st.1 cid s').isEmpty
  · simp only [hresp, Bool.false_eq_true, if_false]
    cases hscore : generate_ai_score o1 s' (responsesFor st.1 cid s') with
    | none => rfl
    | some v =>
      cases hplan : generate_ai_getwell_plan o2 s' (responsesFor st.1 cid s') v ct with
      | none =>
        simp only [hplan]
        exact assignSectionScore_secSlice_other st.1 cid cid2 s' sec v hne
      | some t =>
        simp only [hplan]
        rw [show secSlice (upsertPlan (assignSectionScore st.1 cid s' v) cid s' t) cid2 sec
            = secSlice (assignSectionScore st.1 cid s' v) cid2 sec from by
          unfold secSlice; rw [upsertPlan_assessments]]
        exact assignSectionScore_secSlice_other st.1 cid cid2 s' sec v hne
  · simp [hresp]

lemma scoreSectionStep_planSlice_other (o1 : ScoreSvc) (o2 : PlanSvc) (cid cid2 : Nat)
    (ct : Option String) (st : DB × List (String × Json)) (s' sec : String) (hne : sec ≠ s') :
    planSlice (scoreSectionStep o1 o2 cid ct st s').1 cid2 sec = planSlice st.1 cid2 sec := by
  unfold scoreSectionStep
  cases hresp : (responsesFor st.1 cid s').isEmpty
  · simp only [hresp, Bool.false_eq_true, if_false]
    cases hscore : generate_ai_score o1 s' (responsesFor st.1 cid s') with
    | none => rfl
    | some v =>
      cases hplan : generate_ai_getwell_plan o2 s' (responsesFor st.1 cid s') v ct with
      | none =>
        simp only [hplan]
        unfold planSlice
        rw [assignSectionScore_plans]
      | some t =>
        simp only [hplan]
        rw [upsertPlan_planSlice_other _ cid cid2 s' sec t hne]
        unfold planSlice
        rw [assignSectionScore_plans]
  · simp [hresp]

lemma runSections_secSlice_notmem (o1 : ScoreSvc) (o2 : PlanSvc) (cid cid2 : Nat)
    (ct : Option String) (secs : List String) (sec : String)
    (st : DB × List (String × Json)) (h : sec ∉ secs) :
    secSlice (runSections o1 o2 cid ct secs st).1 cid2 sec = secSlice st.1 cid2 sec := by
  induction secs generalizing st with
  | nil => rfl
  | cons s rest ih =>
    have hs : sec ≠ s := fun hc => h (hc ▸ List.mem_cons_self s rest)
    have hrest : sec ∉ rest := fun hc => h (List.mem_cons_of_mem s hc)
    simp only [runSections, List.foldl_cons]
    rw [show List.foldl (scoreSectionStep o1 o2 cid ct) (scoreSectionStep o1 o2 cid ct st s) rest
        = runSections o1 o2 cid ct rest (scoreSectionStep o1 o2 cid ct st s) from rfl]
    rw [ih _ hrest, scoreSectionStep_secSlice_other _ _ _ _ _ _ _ _ hs]

lemma runSections_planSlice_notmem (o1 : ScoreSvc) (o2 : PlanSvc) (cid cid2 : Nat)
    (ct : Option String) (secs : List String) (sec : String)
    (st : DB × List (String × Json)) (h : sec ∉ secs) :
    planSlice (runSections o1 o2 cid ct secs st).1 cid2 sec = planSlice st.1 cid2 sec := by
  induction secs generalizing st with
  | nil => rfl
  | cons s rest ih =>
    have hs : sec ≠ s := fun hc => h (hc ▸ List.mem_cons_self s rest)
    have hrest : sec ∉ rest := fun hc => h (List.mem_cons_of_mem s hc)
    simp only [runSections, List.foldl_cons]
    rw [show List.foldl (scoreSectionStep o1 o2 cid ct) (scoreSectionStep o1 o2 cid ct st s) rest
        = runSections o1 o2 cid ct rest (scoreSectionStep o1 o2 cid ct st s) from rfl]
    rw [ih _ hrest, scoreSectionStep_planSlice_other _ _ _ _ _ _ _ _ hs]

/-! ### The at-most-one-plan-per-pair invariant -/

lemma upsertPlan_planInv (db : DB) (cid : Nat) (sec t : String) (h : PlanInv db) :
    PlanInv (upsertPlan db cid sec t) := by
  intro k s
  by_cases hany : db.getwell_plans.any (planKey cid sec) = true
  · simp only [upsertPlan, hany, if_true]
    rw [updateFirstWith_countP (planKey k s) (planKey cid sec)
      (fun pl => { pl with plan_text := some t }) (fun x => rfl)]
    exact h k s
  · have hany' : db.getwell_plans.any (planKey cid sec) = false := by simpa using hany
    simp only [upsertPlan, hany', Bool.false_eq_true, if_false, List.countP_append]
    by_cases hk : planKey k s ⟨cid, sec, some t⟩ = true
    · have hcid : cid = k := eq_of_beq ((Bool.and_eq_true _ _).mp hk).1
      have hsec : sec = s := eq_of_beq ((Bool.and_eq_true _ _).mp hk).2
      have h0 : db.getwell_plans.countP (planKey k s) = 0 := by
        rw [List.countP_eq_zero]
        intro x hx hpx
        rw [List.any_eq_false] at hany'
        exact hany' x hx (by rwa [hcid, hsec])
      simp [h0, List.countP_cons, hk]
    · have hk' : planKey k s ⟨cid, sec, some t⟩ = false := by simpa using hk
      have h1 : List.countP (planKey k s) [(⟨cid, sec, some t⟩ : GetWellPlan)] = 0 := by
        simp [List.countP_cons, hk']
      rw [h1]
      simpa using h k s

lemma scoreSectionStep_planInv (o1 : ScoreSvc) (o2 : PlanSvc) (cid : Nat) (ct : Option String)
    (st : DB × List (String × Json)) (sec : String) (h : PlanInv st.1) :
    PlanInv (scoreSectionStep o1 o2 cid ct st sec).1 := by
  unfold scoreSectionStep
  cases hresp : (responsesFor st.1 cid sec).isEmpty
  · simp only [hresp, Bool.false_eq_true, if_false]
    cases hscore : generate_ai_score o1 sec (responsesFor st.1 cid sec) with
    | none => exact h
    | some v =>
      cases hplan : generate_ai_getwell_plan o2 sec (responsesFor st.1 cid sec) v ct with
      | none =>
        simp only [hplan]
        intro k s
        rw [assignSectionScore_plans]
        exact h k s
      | some t =>
        simp only [hplan]
        apply upsertPlan_planInv
        intro k s
        rw [assignSectionScore_plans]
        exact h k s
  · simpa [hresp] using h

lemma runSections_planInv (o1 : ScoreSvc) (o2 : PlanSvc) (cid : Nat) (ct : Option String)
    (secs : List String) (st : DB × List (String × Json)) (h : PlanInv st.1) :
    PlanInv (runSections o1 o2 cid ct secs st).1 := by
  induction secs generalizing st with
  | nil => exact h
  | cons s rest ih =>
    simp only [runSections, List.foldl_cons]
    exact ih _ (scoreSectionStep_planInv o1 o2 cid ct st s h)

lemma calculate_planInv (o1 : ScoreSvc) (o2 : PlanSvc) (db : DB) (cid : Nat)
    (h : PlanInv db) : PlanInv (calculate_all_section_scores o1 o2 db cid).1 :=
  runSections_planInv o1 o2 cid _ _ (db, []) h

lemma update_assessment_planInv (o1 : ScoreSvc) (o2 : PlanSvc) (db : DB) (aid : Nat)
    (ans : Option String) (db' : DB) (h : PlanInv db)
    (hup : update_assessment o1 o2 db aid ans = some db') : PlanInv db' := by
  unfold update_assessment at hup
  cases hfind : db.assessments.find? (fun a => a.id == aid) with
  | none => rw [hfind] at hup; cases hup
  | some a0 =>
    rw [hfind] at hup
    simp only [] at hup
    have hdb1 : PlanInv { db with
        assessments := db.assessments.map (fun a =>
          if a.id == aid then { a with answer := ans } else a) } := h
    cases hresp : (responsesFor { db with
        assessments := db.assessments.map (fun a =>
          if a.id == aid then { a with answer := ans } else a) } a0.company_id a0.sec).isEmpty
    · rw [hresp] at hup
      simp only [Bool.false_eq_true, if_false] at hup
      cases hscore : generate_ai_score o1 a0.sec (responsesFor { db with
          assessments := db.assessments.map (fun a =>
            if a.id == aid then { a with answer := ans } else a) } a0.company_id a0.sec) with
      | none =>
        rw [hscore] at hup
        simp only [Option.some.injEq] at hup
        rw [← hup]
        exact hdb1
      | some v =>
        rw [hscore] at hup
        simp only [] at hup
        cases hplan : generate_ai_getwell_plan o2 a0.sec (responsesFor { db with
            assessments := db.assessments.map (fun a =>
              if a.id == aid then { a with answer := ans } else a) } a0.company_id a0.sec) v
            ((companyById { db with
              assessments := db.assessments.map (fun a =>
                if a.id == aid then { a with answer := ans } else a) } a0.company_id).bind
              (fun c => c.company_type)) with
        | none =>
          rw [hplan] at hup
          simp only [Option.some.injEq] at hup
          rw [← hup]
          intro k s
          rw [assignSectionScore_plans]
          exact hdb1 k s
        | some t =>
          rw [hplan] at hup
          simp only [Option.some.injEq] at hup
          rw [← hup]
          apply upsertPlan_planInv
          intro k s
          rw [assignSectionScore_plans]
          exact hdb1 k s
    · rw [hresp] at hup
      simp only [if_true] at hup
      simp only [Option.some.injEq] at hup
      rw [← hup]
      exact hdb1

/-! ### The scored section itself -/

lemma scoreSectionStep_of_fail (o1 : ScoreSvc) (o2 : PlanSvc) (cid : Nat) (ct : Option String)
    (st : DB × List (String × Json)) (sec : String)
    (hfail : generate_ai_score o1 sec (responsesFor st.1 cid sec) = none) :
    scoreSectionStep o1 o2 cid ct st sec = st := by
  unfold scoreSectionStep
  cases hresp : (responsesFor st.1 cid sec).isEmpty
  · simp [hresp, hfail]
  · simp [hresp]

lemma scoreSectionStep_of_plan (o1 : ScoreSvc) (o2 : PlanSvc) (cid : Nat) (ct : Option String)
    (st : DB × List (String × Json)) (sec : String) (v : Json) (t : String)
    (hresp : (responsesFor st.1 cid sec).isEmpty = false)
    (hscore : generate_ai_score o1 sec (responsesFor st.1 cid sec) = some v)
    (hplan : generate_ai_getwell_plan o2 sec (responsesFor st.1 cid sec) v ct = some t) :
    scoreSectionStep o1 o2 cid ct st sec =
      (upsertPlan (assignSectionScore st.1 cid sec v) cid sec t, st.2 ++ [(sec, v)]) := by
  unfold scoreSectionStep
  simp [hresp, hscore, hplan]

lemma scoreSectionStep_of_noplan (o1 : ScoreSvc) (o2 : PlanSvc) (cid : Nat)
    (ct : Option String) (st : DB × List (String × Json)) (sec : String) (v : Json)
    (hresp : (responsesFor st.1 cid sec).isEmpty = false)
    (hscore : generate_ai_score o1 sec (responsesFor st.1 cid sec) = some v)
    (hplan : generate_ai_getwell_plan o2 sec (responsesFor st.1 cid sec) v ct = none) :
    scoreSectionStep o1 o2 cid ct st sec =
      (assignSectionScore st.1 cid sec v, st.2 ++ [(sec, v)]) := by
  unfold scoreSectionStep
  simp [hresp, hscore, hplan]

lemma planSlice_upsert_self (db : DB) (cid : Nat) (sec t : String)
    (hinv : db.getwell_plans.countP (planKey cid sec) ≤ 1) :
    planSlice (upsertPlan db cid sec t) cid sec = [⟨cid, sec, some t⟩] := by
  by_cases hany : db.getwell_plans.any (planKey cid sec) = true
  · unfold planSlice upsertPlan
    simp only [hany, if_true]
    rw [updateFirstWith_filter_of_inv (planKey cid sec)
      (fun pl => { pl with plan_text := some t }) (fun x => rfl) _ hinv hany]
    have hlen : (db.getwell_plans.filter (planKey cid sec)).length = 1 := by
      have h1 : (db.getwell_plans.filter (planKey cid sec)).length ≤ 1 := by
        rw [← List.countP_eq_length_filter]
        exact hinv
      have h2 : db.getwell_plans.filter (planKey cid sec) ≠ [] := by
        intro hc
        obtain ⟨y, hy, hpy⟩ := List.any_eq_true.mp hany
        have hmem : y ∈ db.getwell_plans.filter (planKey cid sec) :=
          List.mem_filter.mpr ⟨hy, hpy⟩
        rw [hc] at hmem
        exact absurd hmem (List.not_mem_nil y)
      have h3 := List.length_pos.mpr h2
      omega
    obtain ⟨x, hx⟩ := List.length_eq_one.mp hlen
    rw [hx]
    have hpx : planKey cid sec x = true := by
      have hmem : x ∈ db.getwell_plans.filter (planKey cid sec) := by
        rw [hx]; exact List.mem_cons_self x []
      exact (List.mem_filter.mp hmem).2
    have h1 : x.company_id = cid := eq_of_beq ((Bool.and_eq_true _ _).mp hpx).1
    have h2 : x.sec = sec := eq_of_beq ((Bool.and_eq_true _ _).mp hpx).2
    simp [h1, h2]
  · have hany' : db.getwell_plans.any (planKey cid sec) = false := by simpa using hany
    unfold planSlice upsertPlan
    simp only [hany, Bool.false_eq_true, if_false]
    have h0 : db.getwell_plans.filter (planKey cid sec) = [] := by
      rw [List.filter_eq_nil_iff]
      intro a ha
      rw [List.any_eq_false] at hany'
      exact fun hpa => hany' a ha hpa
    have hnew : planKey cid sec ⟨cid, sec, some t⟩ = true := by simp [planKey]
    simp [List.filter_append, h0, hnew]

lemma secSlice_assign_self (db : DB) (cid : Nat) (sec : String) (v : Json) :
    secSlice (assignSectionScore db cid sec v) cid sec =
      (secSlice db cid sec).map (fun a =>
        if !isPlanMarker a.question then { a with score := some v } else a) := by
  unfold secSlice
  rw [assignSectionScore_assessments, filter_map_comm _ _ _ (by intro a; split <;> rfl)]
  apply List.map_congr_left
  intro a ha
  have hp := (List.mem_filter.mp ha).2
  have h1 : (a.company_id == cid) = true := ((Bool.and_eq_true _ _).mp hp).1
  have h2 : (a.sec == sec) = true := ((Bool.and_eq_true _ _).mp hp).2
  by_cases hm : isPlanMarker a.question = true
  · simp [h1, h2, hm]
  · have hm' : isPlanMarker a.question = false := by simpa using hm
    simp [h1, h2, hm']

lemma scored_after_assign (l : List Assessment) (v : Json)
    (hmark : ∀ a ∈ l, isPlanMarker a.question = true → a.score = none) :
    (l.map (fun a =>
        if !isPlanMarker a.question then { a with score := some v } else a)).filterMap
      (fun a => a.score) =
      List.replicate (l.countP (fun a => !isPlanMarker a.question)) v := by
  induction l with
  | nil => rfl
  | cons a rest ih =>
    have ih' := ih (fun b hb hbm => hmark b (List.mem_cons_of_mem a hb) hbm)
    by_cases hm : isPlanMarker a.question = true
    · have hscore := hmark a (List.mem_cons_self a rest) hm
      have hga : (if (!isPlanMarker a.question) = true then { a with score := some v }
          else a).score = none := by
        simp [hm, hscore]
      rw [List.map_cons, List.filterMap_cons_none hga, List.countP_cons]
      simp only [hm, Bool.not_true, Bool.false_eq_true, if_false, Nat.add_zero]
      exact ih'
    · have hm' : isPlanMarker a.question = false := by simpa using hm
      have hga : (if (!isPlanMarker a.question) = true then { a with score := some v }
          else a).score = some v := by
        simp [hm']
      rw [List.map_cons, List.filterMap_cons_some hga, List.countP_cons]
      simp only [hm', Bool.not_false, if_true]
      rw [show (List.countP (fun a => !isPlanMarker a.question) rest + 1) =
        Nat.succ (List.countP (fun a => !isPlanMarker a.question) rest) from rfl]
      rw [List.replicate_succ]
      rw [ih']

lemma sumScores_replicate (n : Nat) (v : Json) (q : ℚ) (h : scoreAddVal v = some q) :
    sumScores (List.replicate n v) = some ((n : ℚ) * q) := by
  induction n with
  | zero => simp [sumScores]
  | succ n ih =>
    rw [List.replicate_succ]
    simp only [sumScores, h, ih]
    congr 1
    push_cast
    ring

lemma get_section_score_of_replicate (db : DB) (cid : Nat) (sec : String) (v : Json)
    (q : ℚ) (n : Nat)
    (hall : (secSlice db cid sec).filterMap (fun a => a.score) = List.replicate n v)
    (hn : n ≠ 0) (hq : scoreAddVal v = some q) :
    get_section_score db cid sec = Except.ok (some q) := by
  rw [get_section_score_eq]
  simp only [hall]
  have hne : (List.replicate n v).isEmpty = false := by
    cases n with
    | zero => exact absurd rfl hn
    | succ m => simp [List.replicate_succ]
  rw [hne]
  simp only [Bool.false_eq_true, if_false]
  rw [sumScores_replicate n v q hq]
  simp only [List.length_replicate]
  have hn' : (n : ℚ) ≠ 0 := Nat.cast_ne_zero.mpr hn
  rw [mul_comm, mul_div_cancel_right₀ _ hn']

/-! ### Plan-marker rows through the pipeline -/

lemma responsesFor_no_marker (db : DB) (cid : Nat) (sec : String) :
    ∀ p ∈ responsesFor db cid sec, isPlanMarker p.1 = false := by
  intro p hp
  rw [responsesFor_eq] at hp
  obtain ⟨a, _, hfa⟩ := List.mem_filterMap.mp hp
  cases hans : a.answer with
  | none => rw [hans] at hfa; exact absurd hfa (by simp)
  | some ans =>
    rw [hans] at hfa
    dsimp only at hfa
    split at hfa
    · rename_i hc
      cases hfa
      have h2 : (!isPlanMarker a.question) = true :=
        ((Bool.and_eq_true _ _).mp ((Bool.and_eq_true _ _).mp hc).1).2
      simpa using h2
    · exact absurd hfa (by simp)

lemma assignSectionScore_markers (db : DB) (cid : Nat) (sec : String) (v : Json) :
    (assignSectionScore db cid sec v).assessments.filter (fun a => isPlanMarker a.question) =
      db.assessments.filter (fun a => isPlanMarker a.question) := by
  rw [assignSectionScore_assessments]
  apply filter_map_eq_filter
  · intro a; split <;> rfl
  · intro a ha
    have hcond : (a.company_id == cid && a.sec == sec && !isPlanMarker a.question) = false := by
      simp [ha]
    rw [hcond]
    simp

lemma scoreSectionStep_markers (o1 : ScoreSvc) (o2 : PlanSvc) (cid : Nat) (ct : Option String)
    (st : DB × List (String × Json)) (sec : String) :
    (scoreSectionStep o1 o2 cid ct st sec).1.assessments.filter
        (fun a => isPlanMarker a.question) =
      st.1.assessments.filter (fun a => isPlanMarker a.question) := by
  unfold scoreSectionStep
  cases hresp : (responsesFor st.1 cid sec).isEmpty
  · simp only [hresp, Bool.false_eq_true, if_false]
    cases hscore : generate_ai_score o1 sec (responsesFor st.1 cid sec) with
    | none => rfl
    | some v =>
      cases hplan : generate_ai_getwell_plan o2 sec (responsesFor st.1 cid sec) v ct with
      | none =>
        simp only [hplan]
        exact assignSectionScore_markers st.1 cid sec v
      | some t =>
        simp only [hplan]
        rw [upsertPlan_assessments]
        exact assignSectionScore_markers st.1 cid sec v
  · simp [hresp]

lemma runSections_markers (o1 : ScoreSvc) (o2 : PlanSvc) (cid : Nat) (ct : Option String)
    (secs : List String) (st : DB × List (String × Json)) :
    (runSections o1 o2 cid ct secs st).1.assessments.filter
        (fun a => isPlanMarker a.question) =
      st.1.assessments.filter (fun a => isPlanMarker a.question) := by
  induction secs generalizing st with
  | nil => rfl
  | cons s rest ih =>
    simp only [runSections, List.foldl_cons]
    rw [show List.foldl (scoreSectionStep o1 o2 cid ct) (scoreSectionStep o1 o2 cid ct st s) rest
        = runSections o1 o2 cid ct rest (scoreSectionStep o1 o2 cid ct st s) from rfl]
    rw [ih _, scoreSectionStep_markers]

lemma filterMap_score_drop_markers (p : Assessment → Bool) (l : List Assessment)
    (h : ∀ a ∈ l, isPlanMarker a.question = true → a.score = none) :
    (l.filter (fun a => p a && !isPlanMarker a.question)).filterMap (fun a => a.score) =
      (l.filter p).filterMap (fun a => a.score) := by
  induction l with
  | nil => rfl
  | cons a rest ih =>
    have ih' := ih (fun b hb => h b (List.mem_cons_of_mem a hb))
    by_cases hm : isPlanMarker a.question = true
    · have hscore := h a (List.mem_cons_self a rest) hm
      by_cases hp : p a = true
      · rw [List.filter_cons, List.filter_cons]
        simp only [hm, hp, Bool.not_true, Bool.and_false, Bool.false_eq_true, if_false, if_true]
        rw [List.filterMap_cons_none hscore, ih']
      · have hp' : p a = false := by simpa using hp
        rw [List.filter_cons, List.filter_cons]
        simp only [hm, hp', Bool.not_true, Bool.false_and, Bool.false_eq_true, if_false]
        exact ih'
    · have hm' : isPlanMarker a.question = false := by simpa using hm
      by_cases hp : p a = true
      · rw [List.filter_cons, List.filter_cons]
        simp only [hm', hp, Bool.not_false, Bool.and_true, if_true]
        cases hsc : a.score with
        | none => rw [List.filterMap_cons_none hsc, List.filterMap_cons_none hsc, ih']
        | some b => rw [List.filterMap_cons_some hsc, List.filterMap_cons_some hsc, ih']
      · have hp' : p a = false := by simpa using hp
        rw [List.filter_cons, List.filter_cons]
        simp only [hm', hp', Bool.not_false, Bool.false_and, Bool.false_eq_true, if_false]
        exact ih'

lemma get_section_score_drop_markers (db : DB) (cid : Nat) (sec : String)
    (h : ∀ a ∈ db.assessments, isPlanMarker a.question = true → a.score = none) :
    get_section_score
        { db with assessments := db.assessments.filter (fun a => !isPlanMarker a.question) }
        cid sec =
      get_section_score db cid sec := by
  rw [get_section_score_eq, get_section_score_eq]
  have hs : (secSlice { db with
        assessments := db.assessments.filter (fun a => !isPlanMarker a.question) } cid sec).filterMap
        (fun a => a.score) =
      (secSlice db cid sec).filterMap (fun a => a.score) := by
    unfold secSlice
    rw [List.filter_filter]
    exact filterMap_score_drop_markers _ _ h
  simp only [hs]

/-! ### Overall score: prepended rows of other sections are invisible -/

lemma get_section_score_prepend_other (db : DB) (cid : Nat) (s : String) (a : Assessment)
    (hne : (a.company_id == cid && a.sec == s) = false) :
    get_section_score { db with assessments := a :: db.assessments } cid s =
      get_section_score db cid s := by
  rw [get_section_score_eq, get_section_score_eq]
  have hs : secSlice { db with assessments := a :: db.assessments } cid s =
      secSlice db cid s := by
    unfold secSlice
    simp [List.filter_cons, hne]
  simp only [hs]

lemma collectSectionScores_prepend_other (db : DB) (cid : Nat) (a : Assessment)
    (secs : List String) (h : ∀ s ∈ secs, a.sec ≠ s) :
    collectSectionScores { db with assessments := a :: db.assessments } cid secs =
      collectSectionScores db cid secs := by
  induction secs with
  | nil => rfl
  | cons s rest ih =>
    have hne : (a.company_id == cid && a.sec == s) = false := by
      have : (a.sec == s) = false :=
        beq_eq_false_iff_ne.mpr (h s (List.mem_cons_self s rest))
      simp [this]
    have ih' := ih (fun x hx => h x (List.mem_cons_of_mem s hx))
    simp only [collectSectionScores, get_section_score_prepend_other db cid s a hne, ih']

lemma get_company_sections_prepend (db : DB) (cid : Nat) (a : Assessment) :
    get_company_sections { db with assessments := a :: db.assessments } cid =
      get_company_sections db cid := rfl

/-! ### The CSV insert loop -/

lemma insertCsvRows_companies (cid : Nat) (df : List CsvRow) (db : DB) :
    (insertCsvRows cid df db).companies = db.companies := by
  induction df generalizing db with
  | nil => rfl
  | cons r rest ih =>
    simp only [insertCsvRows, List.foldl_cons]
    rw [show List.foldl (insertCsvRow cid) (insertCsvRow cid db r) rest
        = insertCsvRows cid rest (insertCsvRow cid db r) from rfl]
    rw [ih]
    unfold insertCsvRow
    split <;> rfl

lemma insertCsvRows_plans (cid : Nat) (df : List CsvRow) (db : DB) :
    (insertCsvRows cid df db).getwell_plans =
      db.getwell_plans ++
        (df.filter (fun r => isPlanMarker r.question)).map
          (fun r => (⟨cid, r.sec, r.answer⟩ : GetWellPlan)) := by
  induction df generalizing db with
  | nil => simp [insertCsvRows]
  | cons r rest ih =>
    simp only [insertCsvRows, List.foldl_cons]
    rw [show List.foldl (insertCsvRow cid) (insertCsvRow cid db r) rest
        = insertCsvRows cid rest (insertCsvRow cid db r) from rfl]
    rw [ih]
    by_cases hm : isPlanMarker r.question = true
    · simp [insertCsvRow, hm, List.filter_cons]
    · have hm' : isPlanMarker r.question = false := by simpa using hm
      simp [insertCsvRow, hm', List.filter_cons]

lemma insertCsvRows_assessments (cid : Nat) (df : List CsvRow) (db : DB) :
    (insertCsvRows cid df db).assessments.map assessProj =
      db.assessments.map assessProj ++
        (df.filter (fun r => !isPlanMarker r.question)).map
          (fun r => (cid, r.sec, r.question, r.answer, (none : Option Json))) := by
  induction df generalizing db with
  | nil => simp [insertCsvRows]
  | cons r rest ih =>
    simp only [insertCsvRows, List.foldl_cons]
    rw [show List.foldl (insertCsvRow cid) (insertCsvRow cid db r) rest
        = insertCsvRows cid rest (insertCsvRow cid db r) from rfl]
    rw [ih]
    by_cases hm : isPlanMarker r.question = true
    · simp [insertCsvRow, hm, List.filter_cons]
    · have hm' : isPlanMarker r.question = false := by simpa using hm
      simp [insertCsvRow, hm', List.filter_cons, assessProj]

/-! ### The scored section through the whole run -/

lemma scoreSectionStep_secSlice_scored (o1 : ScoreSvc) (o2 : PlanSvc) (cid : Nat)
    (ct : Option String) (st : DB × List (String × Json)) (sec : String) (v : Json)
    (hresp : (responsesFor st.1 cid sec).isEmpty = false)
    (hscore : generate_ai_score o1 sec (responsesFor st.1 cid sec) = some v) :
    secSlice (scoreSectionStep o1 o2 cid ct st sec).1 cid sec =
      (secSlice st.1 cid sec).map (fun a =>
        if !isPlanMarker a.question then { a with score := some v } else a) := by
  cases hplan : generate_ai_getwell_plan o2 sec (responsesFor st.1 cid sec) v ct with
  | none =>
    rw [scoreSectionStep_of_noplan o1 o2 cid ct st sec v hresp hscore hplan]
    exact secSlice_assign_self st.1 cid sec v
  | some t =>
    rw [scoreSectionStep_of_plan o1 o2 cid ct st sec v t hresp hscore hplan]
    show secSlice (upsertPlan (assignSectionScore st.1 cid sec v) cid sec t) cid sec = _
    unfold secSlice
    rw [upsertPlan_assessments]
    exact secSlice_assign_self st.1 cid sec v

lemma calculate_decomp (o1 : ScoreSvc) (o2 : PlanSvc) (db : DB) (cid : Nat)
    (xs ys : List String) (sec : String)
    (h_secs : get_company_sections db cid = xs ++ sec :: ys) :
    calculate_all_section_scores o1 o2 db cid =
      runSections o1 o2 cid ((companyById db cid).bind (fun c => c.company_type)) ys
        (scoreSectionStep o1 o2 cid ((companyById db cid).bind (fun c => c.company_type))
          (runSections o1 o2 cid ((companyById db cid).bind (fun c => c.company_type)) xs
            (db, [])) sec) := by
  unfold calculate_all_section_scores
  rw [h_secs, runSections_append]
  simp only [runSections, List.foldl_cons]

lemma sections_split_not_mem (db : DB) (cid : Nat) (xs ys : List String) (sec : String)
    (h_secs : get_company_sections db cid = xs ++ sec :: ys) :
    sec ∉ xs ∧ sec ∉ ys := by
  have hnd := get_company_sections_nodup db cid
  rw [h_secs] at hnd
  constructor
  · intro hc
    exact (List.disjoint_of_nodup_append hnd) hc (List.mem_cons_self sec ys)
  · exact (List.nodup_cons.mp hnd.of_append_right).1

lemma calculate_secSlice_scored (o1 : ScoreSvc) (o2 : PlanSvc) (db : DB) (cid : Nat)
    (xs ys : List String) (sec : String) (v : Json)
    (h_secs : get_company_sections db cid = xs ++ sec :: ys)
    (h_resp : (responsesFor db cid sec).isEmpty = false)
    (h_score : generate_ai_score o1 sec (responsesFor db cid sec) = some v) :
    secSlice (calculate_all_section_scores o1 o2 db cid).1 cid sec =
      (secSlice db cid sec).map (fun a =>
        if !isPlanMarker a.question then { a with score := some v } else a) := by
  obtain ⟨hxs, hys⟩ := sections_split_not_mem db cid xs ys sec h_secs
  rw [calculate_decomp o1 o2 db cid xs ys sec h_secs]
  rw [runSections_secSlice_notmem _ _ _ _ _ _ _ _ hys]
  have hstat : staticView (runSections o1 o2 cid
      ((companyById db cid).bind (fun c => c.company_type)) xs (db, [])).1 = staticView db :=
    runSections_staticView _ _ _ _ _ _
  have hrespX := responsesFor_congr cid sec hstat
  rw [scoreSectionStep_secSlice_scored _ _ _ _ _ _ v (by rw [hrespX]; exact h_resp)
    (by rw [hrespX]; exact h_score)]
  rw [runSections_secSlice_notmem _ _ _ _ _ _ _ _ hxs]

lemma calculate_assigns_mem (o1 : ScoreSvc) (o2 : PlanSvc) (db : DB) (cid : Nat)
    (xs ys : List String) (sec : String) (v : Json)
    (h_secs : get_company_sections db cid = xs ++ sec :: ys)
    (h_resp : (responsesFor db cid sec).isEmpty = false)
    (h_score : generate_ai_score o1 sec (responsesFor db cid sec) = some v) :
    ∀ a ∈ (calculate_all_section_scores o1 o2 db cid).1.assessments,
      a.company_id = cid → a.sec = sec → isPlanMarker a.question = false →
      a.score = some v := by
  intro a ha hcid hsec hmark
  have hmem : a ∈ secSlice (calculate_all_section_scores o1 o2 db cid).1 cid sec :=
    List.mem_filter.mpr ⟨ha, by simp [hcid, hsec]⟩
  rw [calculate_secSlice_scored o1 o2 db cid xs ys sec v h_secs h_resp h_score] at hmem
  obtain ⟨a0, _, hEq⟩ := List.mem_map.mp hmem
  by_cases hm0 : isPlanMarker a0.question = true
  · rw [if_neg (by simp [hm0])] at hEq
    rw [← hEq] at hmark
    rw [hmark] at hm0
    cases hm0
  · rw [if_pos (by simpa using hm0)] at hEq
    rw [← hEq]

lemma responsesFor_nonmarker_pos (db : DB) (cid : Nat) (sec : String)
    (h_resp : (responsesFor db cid sec).isEmpty = false) :
    (secSlice db cid sec).countP (fun a => !isPlanMarker a.question) ≠ 0 := by
  have hne : responsesFor db cid sec ≠ [] := by
    intro hc
    rw [hc] at h_resp
    simp at h_resp
  obtain ⟨p, hp⟩ := List.exists_mem_of_ne_nil _ hne
  rw [responsesFor_eq] at hp
  obtain ⟨a, hamem, hfa⟩ := List.mem_filterMap.mp hp
  have hcond : (!isPlanMarker a.question) = true := by
    cases hans : a.answer with
    | none => rw [hans] at hfa; exact absurd hfa (by simp)
    | some ans =>
      rw [hans] at hfa
      dsimp only at hfa
      split at hfa
      · rename_i hc
        exact ((Bool.and_eq_true _ _).mp ((Bool.and_eq_true _ _).mp hc).1).2
      · exact absurd hfa (by simp)
  have hpos : 0 < (secSlice db cid sec).countP (fun a => !isPlanMarker a.question) :=
    List.countP_pos_iff.mpr ⟨a, hamem, hcond⟩
  omega

lemma calculate_section_mean (o1 : ScoreSvc) (o2 : PlanSvc) (db : DB) (cid : Nat)
    (xs ys : List String) (sec : String) (v : Json) (q : ℚ)
    (h_secs : get_company_sections db cid = xs ++ sec :: ys)
    (h_resp : (responsesFor db cid sec).isEmpty = false)
    (h_score : generate_ai_score o1 sec (responsesFor db cid sec) = some v)
    (h_num : scoreAddVal v = some q)
    (h_mark : ∀ a ∈ db.assessments, a.company_id = cid → a.sec = sec →
      isPlanMarker a.question = true → a.score = none) :
    get_section_score (calculate_all_section_scores o1 o2 db cid).1 cid sec =
      Except.ok (some q) := by
  have h_mark_slice : ∀ a ∈ secSlice db cid sec, isPlanMarker a.question = true →
      a.score = none := by
    intro a ha hm
    have h1 := List.mem_filter.mp ha
    have h2 := (Bool.and_eq_true _ _).mp h1.2
    exact h_mark a h1.1 (eq_of_beq h2.1) (eq_of_beq h2.2) hm
  apply get_section_score_of_replicate _ _ _ v q
    ((secSlice db cid sec).countP (fun a => !isPlanMarker a.question))
  · rw [calculate_secSlice_scored o1 o2 db cid xs ys sec v h_secs h_resp h_score]
    exact scored_after_assign _ v h_mark_slice
  · exact responsesFor_nonmarker_pos db cid sec h_resp
  · exact h_num

lemma calculate_markers (o1 : ScoreSvc) (o2 : PlanSvc) (db : DB) (cid : Nat) :
    (calculate_all_section_scores o1 o2 db cid).1.assessments.filter
        (fun a => isPlanMarker a.question) =
      db.assessments.filter (fun a => isPlanMarker a.question) :=
  runSections_markers _ _ _ _ _ _

/-! ## The claims -/

/-- C1 (corrected): the digit-run fallback of the Score Extractor runs
only when both braces are present and the JSON attempt raises; a
completion lacking `{` or `}` yields no score even when it contains
digits, because the function reaches its final `return None` without any
exception.  When the fallback does run (brace slice fails to parse, or
parses to a non-dict), it returns the first digit run clamped into
`[1,10]`. -/
theorem claim_C1_amended :
    (∀ content : String,
        (content.toList.contains '\x7b' && content.toList.contains '\x7d') = false →
        extract_score_from_content content = none)
  ∧ (∀ content : String,
        content.toList.contains '\x7b' = true → content.toList.contains '\x7d' = true →
        json_loads (braceSlice content) = none →
        extract_score_from_content content = fallbackScore content)
  ∧ (∀ (content : String) (v : Json),
        content.toList.contains '\x7b' = true → content.toList.contains '\x7d' = true →
        json_loads (braceSlice content) = some v → (∀ kvs, v ≠ Json.obj kvs) →
        extract_score_from_content content = fallbackScore content) := by
  refine ⟨?_, ?_, ?_⟩
  · intro content h
    unfold extract_score_from_content
    rw [if_neg (by rw [h]; exact Bool.false_ne_true)]
  · intro content h1 h2 hload
    unfold extract_score_from_content
    rw [if_pos (by rw [h1, h2]; rfl), hload]
  · intro content v h1 h2 hload hne
    unfold extract_score_from_content
    rw [if_pos (by rw [h1, h2]; rfl), hload]
    cases v with
    | obj kvs => exact absurd rfl (hne kvs)
    | null => rfl
    | bool b => rfl
    | num q => rfl
    | str s => rfl
    | arr l => rfl

/-- C1 (counterexample to the claim as stated): the spec's own example
input — digits, no braces — yields no score rather than the claimed
clamped 10. -/
theorem claim_C1_counterexample :
    extract_score_from_content "Some prose... score is 12 overall" = none := rfl

/-- C1 (witness): the amended claim at concrete inputs. -/
theorem claim_C1_witness :
    extract_score_from_content "score is 12, no braces here" = none
  ∧ extract_score_from_content "\x7boops\x7d the score is 12" =
      fallbackScore "\x7boops\x7d the score is 12"
  ∧ fallbackScore "\x7boops\x7d the score is 12" = some (Json.num 10) := by
  refine ⟨claim_C1_amended.1 _ (by rfl),
    claim_C1_amended.2.1 _ (by rfl) (by rfl) (by rfl), by rfl⟩

/-- C2 (confirmed): with both braces present, the Score Extractor slices
from the first `{` to the last `}`, strict-parses, and on success answers
the dict's `score` entry with no clamping; the spec's example yields 7. -/
theorem claim_C2 :
    (∀ (content : String) (kvs : List (String × Json)),
        content.toList.contains '\x7b' = true → content.toList.contains '\x7d' = true →
        json_loads (braceSlice content) = some (Json.obj kvs) →
        extract_score_from_content content = objGet kvs "score")
  ∧ extract_score_from_content "\x7b\"score\": 7, \"justification\": \"ok\"\x7d" =
      some (Json.num 7) := by
  constructor
  · intro content kvs h1 h2 hload
    unfold extract_score_from_content
    rw [if_pos (by rw [h1, h2]; rfl), hload]
  · rfl

/-- C2 (witness): the universal part applied to a completion wrapped in
prose, whose out-of-range value 12 is returned unclamped. -/
theorem claim_C2_witness :
    extract_score_from_content "noise \x7b\"score\": 12\x7d trailing" =
      objGet [("score", Json.num 12)] "score"
  ∧ objGet [("score", Json.num 12)] "score" = some (Json.num 12) := by
  refine ⟨claim_C2.1 _ _ (by rfl) (by rfl) (by rfl), by rfl⟩

/-- C4 (confirmed): for an existing company the Section Resolver returns
exactly the four base sections with one category-specific Section 3
inserted at index 2 (position 3, 1-indexed), and any label outside the
known vocabulary — including a missing label — falls back to the
government-integration variant, with no error. -/
theorem claim_C4 (db : DB) (cid : Nat) (c : Company)
    (hc : companyById db cid = some c) :
    get_company_sections db cid =
      [sn1, sn2, sectionThreeFor c.company_type, sn4, sn5]
  ∧ (get_company_sections db cid).length = 5
  ∧ sectionThreeFor c.company_type ∈
      ["Section 3: Government AI Integration & Contract Performance",
       "Section 3: AI Adoption & Compliance in Healthcare Settings",
       "Section 3: AI Integration & Financial Services Delivery",
       "Section 3: AI Integration & Business Operations"]
  ∧ (∀ s, c.company_type = some s → s ∉ knownCategoryLabels →
      sectionThreeFor c.company_type = sn3G)
  ∧ (c.company_type = none → sectionThreeFor c.company_type = sn3G) := by
  have hsections : get_company_sections db cid = sectionsForType c.company_type := by
    unfold get_company_sections
    rw [hc]
  refine ⟨?_, ?_, sectionThreeFor_mem c.company_type, ?_, ?_⟩
  · rw [hsections, sectionsForType_cases]
    rfl
  · rw [hsections, sectionsForType_cases]
    rfl
  · intro s hs hnotin
    rw [hs]
    unfold sectionThreeFor
    have h1 : (s == "Healthcare") = false := by
      refine beq_eq_false_iff_ne.mpr (fun hc2 => hnotin ?_)
      rw [hc2]; unfold knownCategoryLabels; simp
    have h2 : (s == "Finance") = false := by
      refine beq_eq_false_iff_ne.mpr (fun hc2 => hnotin ?_)
      rw [hc2]; unfold knownCategoryLabels; simp
    have h3 : (s == "FS") = false := by
      refine beq_eq_false_iff_ne.mpr (fun hc2 => hnotin ?_)
      rw [hc2]; unfold knownCategoryLabels; simp
    have h4 : (s == "FTS") = false := by
      refine beq_eq_false_iff_ne.mpr (fun hc2 => hnotin ?_)
      rw [hc2]; unfold knownCategoryLabels; simp
    have h5 : (s == "Financial Transaction Services") = false := by
      refine beq_eq_false_iff_ne.mpr (fun hc2 => hnotin ?_)
      rw [hc2]; unfold knownCategoryLabels; simp
    have h6 : (s == "Technology & Government") = false := by
      refine beq_eq_false_iff_ne.mpr (fun hc2 => hnotin ?_)
      rw [hc2]; unfold knownCategoryLabels; simp
    have h7 : (s == "T&G") = false := by
      refine beq_eq_false_iff_ne.mpr (fun hc2 => hnotin ?_)
      rw [hc2]; unfold knownCategoryLabels; simp
    have h8 : (s == "Basic") = false := by
      refine beq_eq_false_iff_ne.mpr (fun hc2 => hnotin ?_)
      rw [hc2]; unfold knownCategoryLabels; simp
    simp [h1, h2, h3, h4, h5, h6, h7, h8, sn3G]
  · intro hnone
    rw [hnone]
    rfl

/-- C4 (witness): the unknown label `Industrial` resolves to the five
sections with the GovCon variant at position 3. -/
theorem claim_C4_witness :
    get_company_sections dbC4 7 = [sn1, sn2, sn3G, sn4, sn5]
  ∧ sectionThreeFor (some "Industrial") = sn3G := by
  have h := claim_C4 dbC4 7 ⟨7, "Uncat Co", none, none, some "Industrial", none⟩ (by rfl)
  refine ⟨?_, ?_⟩
  · rw [h.1]
    have := h.2.2.2.1 "Industrial" rfl (by unfold knownCategoryLabels; simp)
    rw [this]
  · exact h.2.2.2.1 "Industrial" rfl (by unfold knownCategoryLabels; simp)

/-- C3 (confirmed): the overall score is the equal-weight mean of the
resolved sections' means, the Future-Readiness section is never among the
resolved sections, a company with section means 8, 6 and 4 scores exactly
6, and adding any Future-Readiness assessment leaves the overall score
unchanged. -/
theorem claim_C3 :
    (∀ (db : DB) (cid : Nat), sn6 ∉ get_company_sections db cid)
  ∧ get_overall_score dbC3 1 = Except.ok (some 6)
  ∧ (∀ (db : DB) (cid : Nat) (a : Assessment), a.sec = sn6 →
      get_overall_score { db with assessments := a :: db.assessments } cid =
        get_overall_score db cid) := by
  refine ⟨fun db cid => get_company_sections_not_future db cid, ?_, ?_⟩
  · have h1 : get_section_score dbC3 1 sn1 = Except.ok (some 8) :=
      get_section_score_of_replicate dbC3 1 sn1 (Json.num 8) 8 2 rfl (by decide) rfl
    have h2 : get_section_score dbC3 1 sn2 = Except.ok (some 6) :=
      get_section_score_of_replicate dbC3 1 sn2 (Json.num 6) 6 1 rfl (by decide) rfl
    have h4 : get_section_score dbC3 1 sn4 = Except.ok (some 4) :=
      get_section_score_of_replicate dbC3 1 sn4 (Json.num 4) 4 1 rfl (by decide) rfl
    have h3 : get_section_score dbC3 1 sn3G = Except.ok none := rfl
    have h5 : get_section_score dbC3 1 sn5 = Except.ok none := rfl
    unfold get_overall_score
    rw [show get_company_sections dbC3 1 = [sn1, sn2, sn3G, sn4, sn5] from rfl]
    simp only [collectSectionScores, h1, h2, h3, h4, h5]
    simp only [List.sum_cons, List.sum_nil, List.length_cons, List.length_nil]
    norm_num
  · intro db cid a ha
    unfold get_overall_score
    rw [get_company_sections_prepend]
    rw [collectSectionScores_prepend_other db cid a _ (fun s hs => by
      rw [ha]
      intro hc
      rw [← hc] at hs
      exact get_company_sections_not_future db cid hs)]

/-- C3 (witness): a Future-Readiness row scored 9 does not move the 6.0
overall score of `dbC3`. -/
theorem claim_C3_witness :
    get_overall_score { dbC3 with assessments := futureRow :: dbC3.assessments } 1 =
      Except.ok (some 6) := by
  rw [claim_C3.2.2 dbC3 1 futureRow rfl]
  exact claim_C3.2.1

/-- C7 (confirmed): plan-marker assessments never enter the Response
Formatter's input, keep their stored record (in particular an unset
score) through the whole scoring run, and — whenever plan-marker rows are
unscored, as the pipeline guarantees — deleting them does not change any
derived section mean. -/
theorem claim_C7 :
    (∀ (db : DB) (cid : Nat) (sec : String) (p : String × String),
        p ∈ responsesFor db cid sec → isPlanMarker p.1 = false)
  ∧ (∀ (o1 : ScoreSvc) (o2 : PlanSvc) (db : DB) (cid : Nat),
        (calculate_all_section_scores o1 o2 db cid).1.assessments.filter
            (fun a => isPlanMarker a.question) =
          db.assessments.filter (fun a => isPlanMarker a.question))
  ∧ (∀ (db : DB) (cid : Nat) (sec : String),
        (∀ a ∈ db.assessments, isPlanMarker a.question = true → a.score = none) →
        get_section_score
            { db with
              assessments := db.assessments.filter (fun a => !isPlanMarker a.question) }
            cid sec =
          get_section_score db cid sec) :=
  ⟨fun db cid sec => responsesFor_no_marker db cid sec,
   fun o1 o2 db cid => calculate_markers o1 o2 db cid,
   fun db cid sec h => get_section_score_drop_markers db cid sec h⟩

/-- C7 (witness): in `dbC7` the plan-marker row is unscored, and deleting
it leaves the Section 1 mean untouched. -/
theorem claim_C7_witness :
    get_section_score
        { dbC7 with
          assessments := dbC7.assessments.filter (fun a => !isPlanMarker a.question) }
        1 sn1 =
      get_section_score dbC7 1 sn1
  ∧ isPlanMarker "Get-Well Plan row" = true := by
  refine ⟨claim_C7.2.2 dbC7 1 sn1 ?_, rfl⟩
  intro a ha hm
  fin_cases ha
  · exact absurd hm (by decide)
  · rfl

/-- C9 (confirmed): when the adapter or extractor yields no score for a
section, the whole run equals the run with that section dropped — the
section's assessments and plans are untouched and the loop continues
through the remaining sections. -/
theorem claim_C9 (o1 : ScoreSvc) (o2 : PlanSvc) (db : DB) (cid : Nat)
    (xs ys : List String) (sec : String)
    (h_secs : get_company_sections db cid = xs ++ sec :: ys)
    (h_fail : generate_ai_score o1 sec (responsesFor db cid sec) = none) :
    calculate_all_section_scores o1 o2 db cid =
      runSections o1 o2 cid ((companyById db cid).bind (fun c => c.company_type)) (xs ++ ys)
        (db, [])
  ∧ secSlice (calculate_all_section_scores o1 o2 db cid).1 cid sec = secSlice db cid sec
  ∧ planSlice (calculate_all_section_scores o1 o2 db cid).1 cid sec = planSlice db cid sec := by
  obtain ⟨hxs, hys⟩ := sections_split_not_mem db cid xs ys sec h_secs
  have hnotmem : sec ∉ xs ++ ys := by
    intro hc
    rcases List.mem_append.mp hc with h | h
    · exact hxs h
    · exact hys h
  have hstep : scoreSectionStep o1 o2 cid
      ((companyById db cid).bind (fun c => c.company_type))
      (runSections o1 o2 cid ((companyById db cid).bind (fun c => c.company_type)) xs (db, []))
      sec =
      runSections o1 o2 cid ((companyById db cid).bind (fun c => c.company_type)) xs
        (db, []) := by
    apply scoreSectionStep_of_fail
    rw [responsesFor_congr cid sec (runSections_staticView _ _ _ _ _ _)]
    exact h_fail
  have hmain : calculate_all_section_scores o1 o2 db cid =
      runSections o1 o2 cid ((companyById db cid).bind (fun c => c.company_type)) (xs ++ ys)
        (db, []) := by
    rw [calculate_decomp o1 o2 db cid xs ys sec h_secs, hstep, ← runSections_append]
  refine ⟨hmain, ?_, ?_⟩
  · rw [hmain]
    exact runSections_secSlice_notmem _ _ _ _ _ _ _ _ hnotmem
  · rw [hmain]
    exact runSections_planSlice_notmem _ _ _ _ _ _ _ _ hnotmem

/-- C9 (witness): a Section 1 failure in `dbC9` leaves Section 1's rows
and plan untouched. -/
theorem claim_C9_witness :
    secSlice (calculate_all_section_scores svcFailS1 planNone dbC9 1).1 1 sn1 =
      secSlice dbC9 1 sn1
  ∧ planSlice (calculate_all_section_scores svcFailS1 planNone dbC9 1).1 1 sn1 =
      planSlice dbC9 1 sn1 := by
  have h := claim_C9 svcFailS1 planNone dbC9 1 [] [sn2, sn3G, sn4, sn5] sn1 rfl rfl
  exact ⟨h.2.1, h.2.2⟩

/-- C10 (corrected, amended part): after a section is scored with value
`v`, every non-plan-marker assessment of the section — answered or not —
carries exactly `v`; when `v` has a numeric value `q` and the section's
plan-marker rows were unscored, the recomputed section mean is exactly
`q`.  (A non-numeric `v`, which the pipeline also stores, instead makes
the recomputed mean raise, as the counterexample shows.) -/
theorem claim_C10_amended (o1 : ScoreSvc) (o2 : PlanSvc) (db : DB) (cid : Nat)
    (xs ys : List String) (sec : String) (v : Json) (q : ℚ)
    (h_secs : get_company_sections db cid = xs ++ sec :: ys)
    (h_resp : (responsesFor db cid sec).isEmpty = false)
    (h_score : generate_ai_score o1 sec (responsesFor db cid sec) = some v)
    (h_num : scoreAddVal v = some q)
    (h_mark : ∀ a ∈ db.assessments, a.company_id = cid → a.sec = sec →
      isPlanMarker a.question = true → a.score = none) :
    (∀ a ∈ (calculate_all_section_scores o1 o2 db cid).1.assessments,
        a.company_id = cid → a.sec = sec → isPlanMarker a.question = false →
        a.score = some v)
  ∧ get_section_score (calculate_all_section_scores o1 o2 db cid).1 cid sec =
      Except.ok (some q) :=
  ⟨calculate_assigns_mem o1 o2 db cid xs ys sec v h_secs h_resp h_score,
   calculate_section_mean o1 o2 db cid xs ys sec v q h_secs h_resp h_score h_num h_mark⟩

/-- C10 (counterexample to the claim as stated): a JSON reply whose
`score` is the string `ok` is accepted and stored on the section's
assessments, but the recomputed section mean then raises a type error
instead of equalling the stored value. -/
theorem claim_C10_counterexample :
    ((calculate_all_section_scores svcStr planNone dbK10 1).1.assessments.map
        (fun a => a.score)) = [some (Json.str "ok")]
  ∧ get_section_score (calculate_all_section_scores svcStr planNone dbK10 1).1 1 sn1 =
      Except.error () := ⟨rfl, rfl⟩

/-- C10 (witness): in `dbC10` — one answered question, one blank answer,
one plan-marker row — a score of 4 is stamped on both non-marker rows and
the recomputed Section 1 mean is exactly 4. -/
theorem claim_C10_witness :
    get_section_score (calculate_all_section_scores svc4 planNone dbC10 1).1 1 sn1 =
      Except.ok (some 4)
  ∧ ((calculate_all_section_scores svc4 planNone dbC10 1).1.assessments.map
        (fun a => a.score)) = [some (Json.num 4), some (Json.num 4), none] := by
  have h := claim_C10_amended svc4 planNone dbC10 1 [] [sn2, sn3G, sn4, sn5] sn1
    (Json.num 4) 4 rfl rfl rfl rfl ?hm
  case hm =>
    intro a ha h1 h2 h3
    fin_cases ha
    · exact absurd h3 (by decide)
    · exact absurd h3 (by decide)
    · rfl
  exact ⟨h.2, rfl⟩

/-- C6 (corrected, amended part): a score produced by the digit-run
fallback is an integer clamped into `[1,10]`; a score taken from the JSON
path is stored on the section's assessments exactly as returned, with no
range enforcement. -/
theorem claim_C6_amended :
    (∀ (content : String) (n : Nat), firstDigitRun content = some n →
        fallbackScore content = some (Json.num (max 1 (min 10 n) : ℕ))
      ∧ 1 ≤ max 1 (min 10 n) ∧ max 1 (min 10 n) ≤ 10)
  ∧ (∀ (o1 : ScoreSvc) (o2 : PlanSvc) (db : DB) (cid : Nat) (xs ys : List String)
        (sec : String) (v : Json),
        get_company_sections db cid = xs ++ sec :: ys →
        (responsesFor db cid sec).isEmpty = false →
        generate_ai_score o1 sec (responsesFor db cid sec) = some v →
        ∀ a ∈ (calculate_all_section_scores o1 o2 db cid).1.assessments,
          a.company_id = cid → a.sec = sec → isPlanMarker a.question = false →
          a.score = some v) := by
  constructor
  · intro content n h
    unfold fallbackScore
    rw [h]
    exact ⟨rfl, le_max_left 1 _, by omega⟩
  · intro o1 o2 db cid xs ys sec v h_secs h_resp h_score
    exact calculate_assigns_mem o1 o2 db cid xs ys sec v h_secs h_resp h_score

/-- C6 (counterexample to the claim as stated): the completion
`{"score": 12}` makes the pipeline store 12, outside `[1,10]`. -/
theorem claim_C6_counterexample :
    ((calculate_all_section_scores svc12 planNone dbC6 1).1.assessments.map
        (fun a => a.score)) = [some (Json.num 12)]
  ∧ ¬((12 : ℚ) ≤ 10) := ⟨rfl, by norm_num⟩

/-- C6 (witness): the fallback clamps 99 to an integer in range, and the
JSON path stores 12 verbatim on the single Section 1 row of `dbC6`. -/
theorem claim_C6_witness :
    (fallbackScore "score 99 overall" = some (Json.num (max 1 (min 10 99) : ℕ))
      ∧ 1 ≤ max 1 (min 10 99) ∧ max 1 (min 10 99) ≤ 10)
  ∧ (⟨1, 1, sn1, "Q1", some "A1", some (Json.num 12)⟩ : Assessment).score =
      some (Json.num 12) := by
  refine ⟨claim_C6_amended.1 "score 99 overall" 99 rfl, ?_⟩
  have hlist : (calculate_all_section_scores svc12 planNone dbC6 1).1.assessments =
      [⟨1, 1, sn1, "Q1", some "A1", some (Json.num 12)⟩] := rfl
  exact claim_C6_amended.2 svc12 planNone dbC6 1 [] [sn2, sn3G, sn4, sn5] sn1
    (Json.num 12) rfl rfl rfl _ (by rw [hlist]; exact List.mem_cons_self _ _) rfl rfl
    (by decide)

/-! ### CSV import and the plan invariant -/

lemma insertCsvRows_planInv (cid : Nat) (df : List CsvRow) (db : DB) (hdb : PlanInv db)
    (hnone : ∀ pl ∈ db.getwell_plans, (pl.company_id == cid) = false)
    (hnd : ((df.filter (fun r => isPlanMarker r.question)).map (fun r => r.sec)).Nodup) :
    PlanInv (insertCsvRows cid df db) := by
  intro k s
  rw [insertCsvRows_plans cid df db, List.countP_append]
  by_cases hk : k = cid
  · subst hk
    have h0 : db.getwell_plans.countP (planKey k s) = 0 := by
      rw [List.countP_eq_zero]
      intro pl hpl hkey
      have := ((Bool.and_eq_true _ _).mp hkey).1
      rw [hnone pl hpl] at this
      cases this
    rw [h0]
    have hmap : ((df.filter (fun r => isPlanMarker r.question)).map
          (fun r => (⟨k, r.sec, r.answer⟩ : GetWellPlan))).countP (planKey k s) =
        ((df.filter (fun r => isPlanMarker r.question)).map (fun r => r.sec)).countP
          (fun x => x == s) := by
      rw [List.countP_map, List.countP_map]
      apply List.countP_congr
      intro r _
      simp [planKey]
    rw [hmap]
    have hcount := List.nodup_iff_count_le_one.mp hnd s
    rw [List.count] at hcount
    omega
  · have h1 : ((df.filter (fun r => isPlanMarker r.question)).map
        (fun r => (⟨cid, r.sec, r.answer⟩ : GetWellPlan))).countP (planKey k s) = 0 := by
      rw [List.countP_eq_zero]
      intro pl hpl hkey
      obtain ⟨r, _, hr⟩ := List.mem_map.mp hpl
      have h2 := ((Bool.and_eq_true _ _).mp hkey).1
      rw [← hr] at h2
      exact hk (eq_of_beq h2).symm
    rw [h1]
    have := hdb k s
    omega

lemma upload_csv_planInv (df : List CsvRow) (fn : String) (conf : Bool) (db : DB)
    (hdb : PlanInv db)
    (hnd : ((df.filter (fun r => isPlanMarker r.question)).map (fun r => r.sec)).Nodup) :
    PlanInv (upload_csv df fn conf db).2 := by
  cases hres : resolve_company_name df fn with
  | none =>
    simp only [upload_csv, hres]
    exact hdb
  | some nm =>
    cases hfind : db.companies.find? (fun c => c.name == nm) with
    | some c =>
      cases conf with
      | false =>
        simp only [upload_csv, hres, hfind, Bool.not_false, if_true]
        exact hdb
      | true =>
        simp only [upload_csv, hres, hfind, Bool.not_true, Bool.false_eq_true, if_false]
        refine insertCsvRows_planInv _ _ _ ?_ ?_ hnd
        · intro k s
          show (List.filter (fun p => p.company_id != c.id) db.getwell_plans).countP
              (planKey k s) ≤ 1
          calc (List.filter (fun p => p.company_id != c.id) db.getwell_plans).countP
                (planKey k s)
              ≤ db.getwell_plans.countP (planKey k s) :=
                (List.filter_sublist _).countP_le _
            _ ≤ 1 := hdb k s
        · intro pl hpl
          have h2 := (List.mem_filter.mp hpl).2
          simpa using h2
    | none =>
      simp only [upload_csv, hres, hfind]
      refine insertCsvRows_planInv _ _ _ ?_ ?_ hnd
      · intro k s
        show (List.filter (fun p => p.company_id != freshCompanyId db)
            db.getwell_plans).countP (planKey k s) ≤ 1
        calc (List.filter (fun p => p.company_id != freshCompanyId db)
              db.getwell_plans).countP (planKey k s)
            ≤ db.getwell_plans.countP (planKey k s) :=
              (List.filter_sublist _).countP_le _
          _ ≤ 1 := hdb k s
      · intro pl hpl
        have h2 := (List.mem_filter.mp hpl).2
        simpa using h2

/-! ### The claim on plan uniqueness -/

/-- C5 (corrected, amended part): the two scoring paths upsert plans by
the `(company, section)` pair and so preserve the at-most-one-plan
invariant; a pair scored again ends with exactly one plan row holding the
latest generated text; and the CSV import preserves the invariant
provided its plan-marker rows name distinct sections.  (A CSV with two
plan-marker rows for one section creates two rows for the pair, as the
counterexample shows.) -/
theorem claim_C5_amended :
    (∀ (o1 : ScoreSvc) (o2 : PlanSvc) (db : DB) (cid : Nat), PlanInv db →
        PlanInv (calculate_all_section_scores o1 o2 db cid).1)
  ∧ (∀ (o1 : ScoreSvc) (o2 : PlanSvc) (db : DB) (aid : Nat) (ans : Option String)
        (db' : DB), PlanInv db → update_assessment o1 o2 db aid ans = some db' →
        PlanInv db')
  ∧ (∀ (o1 : ScoreSvc) (o2 : PlanSvc) (db : DB) (cid : Nat) (xs ys : List String)
        (sec : String) (v : Json) (t : String),
        PlanInv db →
        get_company_sections db cid = xs ++ sec :: ys →
        (responsesFor db cid sec).isEmpty = false →
        generate_ai_score o1 sec (responsesFor db cid sec) = some v →
        generate_ai_getwell_plan o2 sec (responsesFor db cid sec) v
          ((companyById db cid).bind (fun c => c.company_type)) = some t →
        planSlice (calculate_all_section_scores o1 o2 db cid).1 cid sec =
          [⟨cid, sec, some t⟩])
  ∧ (∀ (df : List CsvRow) (fn : String) (conf : Bool) (db : DB), PlanInv db →
        ((df.filter (fun r => isPlanMarker r.question)).map (fun r => r.sec)).Nodup →
        PlanInv (upload_csv df fn conf db).2) := by
  refine ⟨fun o1 o2 db cid h => calculate_planInv o1 o2 db cid h,
    fun o1 o2 db aid ans db' h hup => update_assessment_planInv o1 o2 db aid ans db' h hup,
    ?_,
    fun df fn conf db h hnd => upload_csv_planInv df fn conf db h hnd⟩
  intro o1 o2 db cid xs ys sec v t hinv h_secs h_resp h_score h_plan
  obtain ⟨hxs, hys⟩ := sections_split_not_mem db cid xs ys sec h_secs
  rw [calculate_decomp o1 o2 db cid xs ys sec h_secs]
  rw [runSections_planSlice_notmem _ _ _ _ _ _ _ _ hys]
  have hstat : staticView (runSections o1 o2 cid
      ((companyById db cid).bind (fun c => c.company_type)) xs (db, [])).1 = staticView db :=
    runSections_staticView _ _ _ _ _ _
  have hrespX := responsesFor_congr cid sec hstat
  rw [scoreSectionStep_of_plan _ _ _ _ _ _ v t (by rw [hrespX]; exact h_resp)
    (by rw [hrespX]; exact h_score) (by rw [hrespX]; exact h_plan)]
  show planSlice (upsertPlan (assignSectionScore _ cid sec v) cid sec t) cid sec = _
  apply planSlice_upsert_self
  rw [assignSectionScore_plans]
  exact runSections_planInv o1 o2 cid _ xs (db, []) hinv cid sec

/-- C5 (counterexample to the claim as stated): importing a CSV with two
plan-marker rows for Section 1 leaves two plan rows for the same
`(company, section)` pair. -/
theorem claim_C5_counterexample :
    (upload_csv dfC5 "dup.csv" false dbEmpty).2.getwell_plans.countP (planKey 1 sn1) = 2
  ∧ ¬ PlanInv (upload_csv dfC5 "dup.csv" false dbEmpty).2 := by
  refine ⟨rfl, fun h => ?_⟩
  have h2 := h 1 sn1
  rw [show (upload_csv dfC5 "dup.csv" false dbEmpty).2.getwell_plans.countP (planKey 1 sn1)
      = 2 from rfl] at h2
  omega

/-- C5 (witness): scoring `dbC5` twice in succession — first with a plan
text `plan one`, then `plan two` — leaves exactly one Section 1 plan row,
holding `plan two`. -/
theorem claim_C5_witness :
    planSlice (calculate_all_section_scores svc5 planTwo dbC5run1 1).1 1 sn1 =
      [⟨1, sn1, some "plan two"⟩] := by
  have hinv1 : PlanInv dbC5 := by
    intro k s
    show List.countP (planKey k s) [] ≤ 1
    rw [List.countP_nil]
    omega
  have hinv2 : PlanInv dbC5run1 :=
    claim_C5_amended.1 svc3 planOne dbC5 1 hinv1
  exact claim_C5_amended.2.2.1 svc5 planTwo dbC5run1 1 [] [sn2, sn3G, sn4, sn5] sn1
    (Json.num 5) "plan two" hinv2 rfl rfl rfl rfl

/-! ### The duplicate-company guard -/

lemma map_assessProj_filter_eq (l : List Assessment) (cid : Nat) :
    (l.filter (fun a => a.company_id == cid)).map assessProj =
      (l.map assessProj).filter (fun t => t.1 == cid) := by
  induction l with
  | nil => rfl
  | cons a rest ih =>
    by_cases hp : (a.company_id == cid) = true
    · simp only [List.filter_cons, List.map_cons, hp, if_true]
      rw [show ((assessProj a).1 == cid) = true from hp]
      simp only [if_true, List.map_cons]
      rw [ih]
    · have hp' := eq_false_of_ne_true hp
      simp only [List.filter_cons, List.map_cons, hp', Bool.false_eq_true, if_false]
      rw [show ((assessProj a).1 == cid) = false from hp']
      simp only [Bool.false_eq_true, if_false]
      exact ih

/-- C8 (confirmed): an upload resolving to an existing company name
without the confirmation flag returns the `COMPANY_EXISTS` outcome and
writes nothing; with the flag set it proceeds, and the company's stored
assessment and plan rows afterwards are exactly the uploaded rows — all
prior rows of that company are gone. -/
theorem claim_C8 (df : List CsvRow) (filename : String) (db : DB) (nm : String)
    (c : Company)
    (hname : resolve_company_name df filename = some nm)
    (hfound : db.companies.find? (fun c2 => c2.name == nm) = some c) :
    upload_csv df filename false db = (UploadOutcome.companyExists nm, db)
  ∧ (upload_csv df filename true db).1 = UploadOutcome.imported nm
  ∧ ((upload_csv df filename true db).2.assessments.filter
        (fun a => a.company_id == c.id)).map assessProj =
      (df.filter (fun r => !isPlanMarker r.question)).map
        (fun r => (c.id, r.sec, r.question, r.answer, (none : Option Json)))
  ∧ (upload_csv df filename true db).2.getwell_plans.filter
        (fun p => p.company_id == c.id) =
      (df.filter (fun r => isPlanMarker r.question)).map
        (fun r => (⟨c.id, r.sec, r.answer⟩ : GetWellPlan)) := by
  refine ⟨?_, ?_, ?_, ?_⟩
  · simp only [upload_csv, hname, hfound, Bool.not_false, if_true]
  · simp only [upload_csv, hname, hfound, Bool.not_true, Bool.false_eq_true, if_false]
  · simp only [upload_csv, hname, hfound, Bool.not_true, Bool.false_eq_true, if_false]
    rw [map_assessProj_filter_eq, insertCsvRows_assessments]
    dsimp only
    rw [List.filter_append]
    have hnil : ((db.assessments.filter (fun a => a.company_id != c.id)).map
        assessProj).filter (fun t => t.1 == c.id) = [] := by
      rw [List.filter_eq_nil_iff]
      intro t ht
      obtain ⟨a, ha, hta⟩ := List.mem_map.mp ht
      have h2 := (List.mem_filter.mp ha).2
      have h3 : (a.company_id == c.id) = false := by simpa using h2
      rw [← hta]
      simp [assessProj, h3]
    rw [hnil, List.nil_append]
    apply List.filter_eq_self.mpr
    intro t ht
    obtain ⟨r, _, htr⟩ := List.mem_map.mp ht
    rw [← htr]
    simp
  · simp only [upload_csv, hname, hfound, Bool.not_true, Bool.false_eq_true, if_false]
    rw [insertCsvRows_plans]
    dsimp only
    rw [List.filter_append]
    have hnil : (db.getwell_plans.filter (fun p => p.company_id != c.id)).filter
        (fun p => p.company_id == c.id) = [] := by
      rw [List.filter_eq_nil_iff]
      intro pl hpl
      have h2 := (List.mem_filter.mp hpl).2
      have h3 : (pl.company_id == c.id) = false := by simpa using h2
      simp [h3]
    rw [hnil, List.nil_append]
    apply List.filter_eq_self.mpr
    intro pl hpl
    obtain ⟨r, _, hr⟩ := List.mem_map.mp hpl
    rw [← hr]
    simp

/-- C8 (witness): re-uploading `Acme Analytics` without confirmation
changes nothing and answers `COMPANY_EXISTS`; with confirmation, the
company's rows afterwards are exactly the three uploaded rows (the old
assessment and plan are gone). -/
theorem claim_C8_witness :
    upload_csv dfC8 "re.csv" false dbC8 =
      (UploadOutcome.companyExists "Acme Analytics", dbC8)
  ∧ ((upload_csv dfC8 "re.csv" true dbC8).2.assessments.filter
        (fun a => a.company_id == 1)).map assessProj =
      [(1, sn1, "Company Name", some "Acme Analytics", (none : Option Json)),
       (1, sn1, "Q1", some "A1", none)]
  ∧ (upload_csv dfC8 "re.csv" true dbC8).2.getwell_plans.filter
        (fun p => p.company_id == 1) = [⟨1, sn2, some "plan b"⟩] := by
  have h := claim_C8 dfC8 "re.csv" dbC8 "Acme Analytics"
    ⟨1, "Acme Analytics", none, none, some "T&G", none⟩ rfl rfl
  exact ⟨h.1, h.2.2.1.trans (by rfl), h.2.2.2.trans (by rfl)⟩
